import Mathlib

/-
Verification of the grid state machine of gnvim (src/src/ui/ui.rs,
src/src/ui/grid/context.rs, src/src/ui/messages.rs) against its
natural-language specification.

The embedding is shallow: the Rust structures become Lean structures,
`f64` fields become rationals, `u64` ids become naturals, GTK/cairo
handles are dropped, fallible code (Rust `unwrap`) returns `Option`
(with `none` standing for a panic), and the side effects issued to the
outside world (drawing, resize negotiation, timer cancellation) are
collected in an explicit effect list.

Parts of the repository that the claims need but whose sources are not
under src/ (grid/grid.rs, grid/row.rs, grid/render.rs, font.rs,
color.rs, nvim_bridge.rs) are modelled from the specification; each
such definition carries a doc comment starting with
`Modelled from the spec:`.
-/

namespace Gnvim

/-- Modelled from the spec: color.rs is not under src/. A color is an opaque
RGB value; the claims only compare colors for equality. -/
structure Color where
  val : Nat
deriving DecidableEq, Repr

instance : Inhabited Color := ⟨⟨0⟩⟩

/-- Modelled from the spec: color.rs is not under src/. §3 gives the fields of
a highlight definition: optional foreground/background/special colors and the
style flags bold, italic, underline, strikethrough, reverse. -/
structure Highlight where
  foreground : Option Color := none
  background : Option Color := none
  special : Option Color := none
  bold : Bool := false
  italic : Bool := false
  underline : Bool := false
  strikethrough : Bool := false
  reverse : Bool := false
deriving DecidableEq, Repr

/-- Modelled from the spec: `Highlight::default()` of color.rs; all colors
absent and all style flags off. -/
def Highlight.default : Highlight := {}

/-- Modelled from the spec: font.rs is not under src/. A font description is
a family name plus a point size; the dispatcher only stores and compares it. -/
structure Font where
  name : String := "Monospace"
  height : Int := 12
deriving DecidableEq, Repr

/-- Modelled from the spec: `Font::default()` of font.rs. -/
def Font.default : Font := {}

/-- From src/src/ui/ui.rs `HlDefs`: highlight definitions keyed by u64 id
plus the process-wide default colors. The HashMap is embedded as an
association list; `insert` replaces a previous binding wholesale. -/
structure HlDefs where
  hl_defs : List (Nat × Highlight) := []
  default_fg : Color := ⟨0⟩
  default_bg : Color := ⟨0⟩
  default_sp : Color := ⟨0⟩
deriving DecidableEq, Repr

/-- From src/src/ui/ui.rs `HlDefs::get`: plain HashMap lookup returning
`Option` — there is no fallback of any kind in this function. -/
def HlDefs.get (d : HlDefs) (id : Nat) : Option Highlight :=
  (d.hl_defs.find? (fun p => p.1 == id)).map (fun p => p.2)

/-- From src/src/ui/ui.rs `HlDefs::insert`: HashMap insert, replacing any
previous binding for the id. -/
def HlDefs.insert (d : HlDefs) (id : Nat) (hl : Highlight) : HlDefs :=
  { d with hl_defs := (id, hl) :: d.hl_defs.filter (fun p => p.1 ≠ id) }

/-- Modelled from the spec: §4.1, the lookup used by the (missing) render
code: the definition when present, otherwise the current default (id 0)
definition. -/
def HlDefs.hl_or_default (d : HlDefs) (id : Nat) : Highlight :=
  (d.get id).getD ((d.get 0).getD Highlight.default)

/-- From src/src/ui/messages.rs `Message::new`: the label content is built by
resolving each chunk's highlight id with `hl_defs.get(&chunk.0).unwrap()`;
the unwrap panics (here: `none`) when the id is undefined. The pango markup
rendering itself lives outside src/ and is abstracted to the list of resolved
(highlight, text) pairs. -/
def Message.new_chunks (content : List (Nat × String)) (hl_defs : HlDefs) :
    Option (List (Highlight × String)) :=
  content.foldlM
    (fun acc chunk =>
      (hl_defs.get chunk.1).map (fun hl => acc ++ [(hl, chunk.2)]))
    []

/-- Pango's fixed-point scale constant (`pango::SCALE`). -/
def pangoSCALE : Int := 1024

/-- The integer metrics pango reports for a font (`pango::FontMetrics`), in
pango units. An input to the embedding. -/
structure FontMetrics where
  ascent : Int
  descent : Int
  approx_digit_width : Int
  underline_position : Int
  underline_thickness : Int
deriving DecidableEq, Repr

/-- From src/src/ui/grid/context.rs `CellMetrics`: cell geometry derived from
the font and the line spacing. The source (and hence this embedding) spells
the descent field `decent`. `f64` fields are embedded as rationals. -/
structure CellMetrics where
  height : ℚ := 0
  width : ℚ := 0
  ascent : ℚ := 0
  decent : ℚ := 0
  underline_thickness : ℚ := 0
  underline_position : ℚ := 0
  line_space : Int := 0
  font : Font := {}
deriving DecidableEq, Repr

/-- From src/src/ui/grid/context.rs `CellMetrics::update`: queries pango for
the metrics of `self.font` (here through the environment's `fmOf`), pads
ascent and descent with half the line space, derives the height as their sum,
takes the width from the approximate digit width (note the source divides the
integers before casting), shifts the underline position by the same padding
and doubles the underline thickness. -/
def CellMetrics.update (fmOf : Font → FontMetrics) (cm : CellMetrics) :
    CellMetrics :=
  let fm := fmOf cm.font
  let extra : ℚ := (cm.line_space : ℚ) / 2
  let ascent : ℚ := (fm.ascent : ℚ) / (pangoSCALE : ℚ) + extra
  let decent : ℚ := (fm.descent : ℚ) / (pangoSCALE : ℚ) + extra
  { cm with
    ascent := ascent
    decent := decent
    height := ascent + decent
    width := ((fm.approx_digit_width / pangoSCALE : Int) : ℚ)
    underline_position :=
      (fm.underline_position : ℚ) / (pangoSCALE : ℚ) - extra
    underline_thickness :=
      (fm.underline_thickness : ℚ) / (pangoSCALE : ℚ) * 2 }

/-- Modelled from the spec: row.rs is not under src/. A run ("leaf") is a
maximal style-homogeneous span of cells: its glyph-source text, its highlight
id, whether it is a double-width occupant, and the number of display columns
it covers (a double-width occupant covers two, §3). -/
structure Leaf where
  text : String
  hl_id : Nat
  double_width : Bool
  width : Nat
deriving DecidableEq, Repr

/-- Modelled from the spec: row.rs is not under src/. §3: a row is an ordered
sequence of runs covering all columns of one grid line. -/
structure Row where
  leaves : List Leaf
deriving DecidableEq, Repr

def Leaf.blank (n : Nat) : Leaf :=
  { text := " ", hl_id := 0, double_width := false, width := n }

/-- Total column width of a run list (double-width cells count as 2, §3). -/
def leavesWidth (ls : List Leaf) : Nat :=
  (ls.map (fun l => l.width)).sum

def Row.width (r : Row) : Nat := leavesWidth r.leaves

/-- Modelled from the spec: §4.2 `leaf_at(col)` returns the run covering a
column; `none` when no run covers it. -/
def leafAtAux : List Leaf → Nat → Option Leaf
  | [], _ => none
  | l :: rest, col => if col < l.width then some l else leafAtAux rest (col - l.width)

def Row.leaf_at (r : Row) (col : Nat) : Option Leaf :=
  leafAtAux r.leaves col

/-- Modelled from the spec: the runs covering the first `n` columns of a run
list; a run straddling the boundary cannot be split textually and is replaced
by a blank run filling the remainder (blank-filling keeps the partition
invariant of §3). -/
def takeCols : List Leaf → Nat → List Leaf
  | _, 0 => []
  | [], n => [Leaf.blank n]
  | l :: rest, n => if l.width ≤ n then l :: takeCols rest (n - l.width) else [Leaf.blank n]

/-- Modelled from the spec: the runs after the first `n` columns of a run
list; a straddling run's remainder is blank-filled. -/
def dropCols : List Leaf → Nat → List Leaf
  | ls, 0 => ls
  | [], _ => []
  | l :: rest, n =>
    if l.width ≤ n then dropCols rest (n - l.width)
    else Leaf.blank (l.width - n) :: rest

/-- Modelled from the spec: §4.2/§9 merge-on-write — adjacent runs with the
same highlight id (and not double-width occupants) are merged into one run. -/
def mergeLeaves : List Leaf → List Leaf
  | [] => []
  | [l] => [l]
  | a :: b :: rest =>
    if a.hl_id = b.hl_id ∧ a.double_width = false ∧ b.double_width = false then
      mergeLeaves
        ({ text := a.text ++ b.text, hl_id := a.hl_id, double_width := false,
           width := a.width + b.width } :: rest)
    else
      a :: mergeLeaves (b :: rest)
termination_by ls => ls.length

/-- A blank row of the given column width. -/
def Row.blank (n : Nat) : Row := ⟨[Leaf.blank n]⟩

/-- Modelled from the spec: §4.2 resize of one row: truncate to `n` columns
or extend with blank cells. -/
def Row.resizeTo (r : Row) (n : Nat) : Row :=
  if r.width < n then ⟨r.leaves ++ [Leaf.blank (n - r.width)]⟩
  else ⟨takeCols r.leaves n⟩

/-- Modelled from the spec: §4.2 scroll — columns `[left, right)` of `dst`
are replaced by the same columns of `src`; columns outside are untouched. -/
def Row.copyRegion (dst src : Row) (left right : Nat) : Row :=
  ⟨takeCols dst.leaves left ++
     takeCols (dropCols src.leaves left) (right - left) ++
     dropCols dst.leaves right⟩

/-- From src/src/ui/grid/context.rs `Context`: the per-grid state. The cairo
surfaces, the pango handle and the draw-queue bookkeeping are dropped; the
remaining fields mirror the source. -/
structure Context where
  cell_metrics : CellMetrics := {}
  cell_metrics_update : Option CellMetrics := none
  rows : List Row := []
  cursor : Nat × Nat := (0, 0)
  cursor_alpha : ℚ := 1
  cursor_blink_on : Nat := 0
  cursor_cell_percentage : ℚ := 1
  cursor_color : Color := ⟨0⟩
  busy : Bool := false
  active : Bool := false
deriving DecidableEq, Repr

/-- Modelled from the spec: render.rs is not under src/. §4.3 `get_coords`:
`x = col * width`, `y = row * height`. The argument order mirrors the call
site in context.rs (`get_coords(height, width, row, col)`). -/
def get_coords (h w row col : ℚ) : ℚ × ℚ :=
  (col * w, row * h)

/-- From src/src/ui/grid/context.rs `Context::get_cursor_rect`: the
double-width flag of the run covering column `cursor.1 + 1` of the cursor's
row, with `unwrap_or(false)` when the row (or no run) is there; position from
`get_coords`; width doubled for a double-width occupant; height one cell. -/
def Context.get_cursor_rect (ctx : Context) : ℚ × ℚ × ℚ × ℚ :=
  let double_width :=
    ((ctx.rows.get? ctx.cursor.1).bind
      (fun row => (row.leaf_at (ctx.cursor.2 + 1)).map (fun l => l.double_width))).getD
      false
  let cm := ctx.cell_metrics
  let xy := get_coords cm.height cm.width (ctx.cursor.1 : ℚ) (ctx.cursor.2 : ℚ)
  (xy.1, xy.2, if double_width then cm.width * 2 else cm.width, cm.height)

/-- From src/src/ui/grid/context.rs `Context::update_metrics`: store the new
font and line space in the cell metrics and recompute them (the cairo cursor
surface reallocation is dropped). -/
def Context.update_metrics (fmOf : Font → FontMetrics) (ctx : Context)
    (font : Font) (line_space : Int) : Context :=
  { ctx with
    cell_metrics :=
      CellMetrics.update fmOf
        { ctx.cell_metrics with font := font, line_space := line_space } }

/-- Modelled from the spec: nvim_bridge.rs is not under src/. One cell of a
grid-line write: glyph-source text, highlight id, double-width flag. -/
structure GridLineCell where
  text : String
  hl_id : Nat
  double_width : Bool
deriving DecidableEq, Repr

/-- Modelled from the spec: nvim_bridge.rs is not under src/. §4.2
`put_line(row, start_col, cells, repeat)`: a grid-line write addressing a
grid, a row, a start column; `repeat_extra` is the number of extra copies of
the last supplied cell used for run-length blank fills. -/
structure GridLineData where
  grid : Nat
  row : Nat
  col_start : Nat
  cells : List GridLineCell
  repeat_extra : Nat := 0
deriving DecidableEq, Repr

/-- The cells of a grid-line write after expanding the trailing repeat. -/
def GridLineData.expanded (l : GridLineData) : List GridLineCell :=
  l.cells ++
    (match l.cells.getLast? with
     | some c => List.replicate l.repeat_extra c
     | none => [])

/-- From src/src/nvim_bridge (declaration visible in ui.rs): a cursor-goto
event carries the target grid id and the new position. -/
structure GridCursorGoto where
  grid : Nat
  row : Nat
  col : Nat
deriving DecidableEq, Repr

/-- From the `GridResize` destructuring in ui.rs: target grid, new width and
height in cells. -/
structure GridResizeData where
  grid : Nat
  width : Nat
  height : Nat
deriving DecidableEq, Repr

/-- From the `GridScroll` use in ui.rs: target grid, scroll region
(top, bottom, left, right), and row/column deltas. -/
structure GridScrollData where
  grid : Nat
  reg : Nat × Nat × Nat × Nat
  rows : Int
  cols : Int
deriving DecidableEq, Repr

/-- From the `DefaultColorsSet` destructuring in ui.rs. -/
structure DefaultColorsSet where
  fg : Color
  bg : Color
  sp : Color
deriving DecidableEq, Repr

/-- From the `HlAttrDefine` destructuring in ui.rs. -/
structure HlAttrDefine where
  id : Nat
  hl : Highlight
deriving DecidableEq, Repr

/-- From the `OptionSet` match in ui.rs: a font change, a line-space change,
or an option the client does not support (logged and otherwise ignored). -/
inductive OptionSet where
  | guiFont (guifont : String)
  | lineSpace (val : Int)
  | notSupported (name : String)
deriving DecidableEq, Repr

/-- The redraw events of the grid state machine, mirroring the arms of
`handle_redraw_event` in ui.rs that address grids, highlights, options and
the flush boundary (each arm iterates a batch-internal list, kept here). The
purely widget-directed arms (popupmenu, cmdline, tabline, wildmenu, title)
act on excluded collaborators and are not part of the embedding. -/
inductive RedrawEvent where
  | gridLine (lines : List GridLineData)
  | gridCursorGoto (gotos : List GridCursorGoto)
  | gridResize (resizes : List GridResizeData)
  | gridClear (grids : List Nat)
  | gridScroll (scrolls : List GridScrollData)
  | defaultColorsSet (sets : List DefaultColorsSet)
  | hlAttrDefine (defs : List HlAttrDefine)
  | optionSet (opts : List OptionSet)
  | flush
deriving DecidableEq, Repr

/-- Modelled from the spec: grid.rs is not under src/. A Grid owns one
Context (§4.5) plus its id and the pixel size of its drawing area, which
`calc_size` divides by the cell metrics. -/
structure Grid where
  id : Nat
  context : Context := {}
  da_width : Int := 0
  da_height : Int := 0
deriving DecidableEq, Repr

/-- Modelled from the spec: grid.rs `get_font` accessor (§6). -/
def Grid.get_font (g : Grid) : Font := g.context.cell_metrics.font

/-- Modelled from the spec: grid.rs `get_line_space` accessor (§6). -/
def Grid.get_line_space (g : Grid) : Int := g.context.cell_metrics.line_space

/-- Modelled from the spec: grid.rs `set_active` (§4.5) toggles the
context's active flag. -/
def Grid.set_active (g : Grid) (b : Bool) : Grid :=
  { g with context := { g.context with active := b } }

/-- Modelled from the spec: grid.rs `cursor_goto` (§4.5) moves the context's
cursor (the dirty-region queueing is a render detail and is dropped). -/
def Grid.cursor_goto (g : Grid) (row col : Nat) : Grid :=
  { g with context := { g.context with cursor := (row, col) } }

/-- Modelled from the spec: grid.rs `set_busy` (§4.5). -/
def Grid.set_busy (g : Grid) (b : Bool) : Grid :=
  { g with context := { g.context with busy := b } }

/-- Modelled from the spec: grid.rs `update_cell_metrics(font, line_space)`
applies the §4.3 recomputation through Context::update_metrics. -/
def Grid.update_cell_metrics (fmOf : Font → FontMetrics) (g : Grid)
    (font : Font) (line_space : Int) : Grid :=
  { g with context := Context.update_metrics fmOf g.context font line_space }

/-- Modelled from the spec: grid.rs `calc_size` (§4.5) derives the logical
grid capacity from the host pixel size and the current cell metrics. -/
def Grid.calc_size (g : Grid) : Int × Int :=
  (⌊(g.da_width : ℚ) / g.context.cell_metrics.width⌋,
   ⌊(g.da_height : ℚ) / g.context.cell_metrics.height⌋)

/-- Modelled from the spec: grid.rs `clear` (§4.2) resets every cell to the
default blank style, keeping the grid dimensions. -/
def Grid.clear (g : Grid) (_hl_defs : HlDefs) : Grid :=
  { g with context :=
      { g.context with rows := g.context.rows.map (fun r => Row.blank r.width) } }

/-- Modelled from the spec: grid.rs `resize(cols, rows)` (§4.2) grows or
truncates the row count and per-row width; newly exposed cells are blank. -/
def Grid.resize (g : Grid) (width height : Nat) : Grid :=
  { g with context :=
      { g.context with
        rows := (List.range height).map (fun i =>
          match g.context.rows.get? i with
          | some r => r.resizeTo width
          | none => Row.blank width) } }

/-- Modelled from the spec: grid.rs `scroll(region, rows, cols)` (§4.2, §8):
inside the region a destination row receives the region-restricted columns of
the source row `delta` rows away when that source lies inside the region, and
blanks otherwise; rows outside the region are untouched. (The column delta is
always zero on the wire and is not modelled.) -/
def Grid.scroll (g : Grid) (reg : Nat × Nat × Nat × Nat) (drows : Int)
    (_dcols : Int) (_hl_defs : HlDefs) : Grid :=
  let (top, bot, left, right) := reg
  let oldRows := g.context.rows
  { g with context :=
      { g.context with
        rows := oldRows.mapIdx (fun i r =>
          if top ≤ i ∧ i < bot then
            let src : Int := (i : Int) + drows
            if top ≤ src ∧ src < (bot : Int) then
              match oldRows.get? src.toNat with
              | some srcRow => Row.copyRegion r srcRow left right
              | none => Row.copyRegion r (Row.blank r.width) left right
            else
              Row.copyRegion r (Row.blank r.width) left right
          else r) } }

/-- The effects the dispatcher issues to the outside world while handling a
batch, in issue order. -/
inductive Effect where
  | drawCells (grid : Nat) (row col : Nat) (cells : List (String × Highlight))
  | autocmdScroll
  | redraw (grid : Nat)
  | flushGrid (grid : Nat)
  | updateMetrics (grid : Nat) (font : Font) (line_space : Int)
  | cancelResizeTimer (timer : Nat)
  | uiTryResize (cols rows : Int)
deriving DecidableEq, Repr

/-- Modelled from the spec: grid.rs `put_line` (§4.2) overwrites a contiguous
span of the addressed row with the expanded cells, rebuilding the run list
with merge-on-write, and renders the written cells with the highlight
definitions in effect at the call (§4.1 lookup). An out-of-bounds row is a
recoverable error: the event is dropped. -/
def Grid.put_line (g : Grid) (line : GridLineData) (hl_defs : HlDefs) :
    Grid × List Effect :=
  if line.row < g.context.rows.length then
    let cells := line.expanded
    let newLeaves := cells.map (fun c =>
      Leaf.mk c.text c.hl_id c.double_width (if c.double_width then 2 else 1))
    let oldRow := (g.context.rows.get? line.row).getD (Row.blank 0)
    let newRow : Row :=
      ⟨mergeLeaves
        (takeCols oldRow.leaves line.col_start ++ newLeaves ++
          dropCols oldRow.leaves (line.col_start + leavesWidth newLeaves))⟩
    ({ g with context :=
        { g.context with rows := g.context.rows.set line.row newRow } },
     [Effect.drawCells line.grid line.row line.col_start
        (cells.map (fun c => (c.text, hl_defs.hl_or_default c.hl_id)))])
  else (g, [])

/-- From src/src/ui/ui.rs `ResizeOptions`: the pending { font, line_space }
record accumulated between flush boundaries. -/
structure ResizeOptions where
  font : Font
  line_space : Int
deriving DecidableEq, Repr

/-- From src/src/ui/ui.rs `UIState`: the dispatcher state. The widget
collaborators (popupmenu, cmdline, tabline, cursor tooltip, overlay) and the
mode infos are excluded; the glib source id of the debounce timer is a plain
optional id. -/
structure UIState where
  grids : List (Nat × Grid) := []
  hl_defs : HlDefs := {}
  current_grid : Nat := 1
  resize_source_id : Option Nat := none
  resize_on_flush : Option ResizeOptions := none
deriving DecidableEq, Repr

/-- The environment of the dispatcher: how pango answers metric queries for a
font, and how font.rs parses a guifont string (`Font::from_guifont`, not
under src/). -/
structure Cfg where
  fmOf : Font → FontMetrics
  parseGuifont : String → Option Font

def lookupGrid (gs : List (Nat × Grid)) (k : Nat) : Option Grid :=
  (gs.find? (fun p => p.1 == k)).map (fun p => p.2)

/-- Replace the grid stored under a key (the source mutates the grid found in
the HashMap through interior mutability). -/
def setGrid (gs : List (Nat × Grid)) (k : Nat) (g : Grid) :
    List (Nat × Grid) :=
  gs.map (fun p => if p.1 = k then (p.1, g) else p)

/-- From src/src/ui/ui.rs `handle_redraw_event`, `GridCursorGoto` arm: when
the target differs from the current grid, deactivate the current grid, switch
the current-grid pointer, activate the target, and in either case apply the
cursor position. Every grid lookup is an `unwrap` in the source: `none`
models the panic. -/
def processGoto (s : UIState) (gt : GridCursorGoto) : Option UIState := do
  let s ←
    if gt.grid ≠ s.current_grid then do
      let old ← lookupGrid s.grids s.current_grid
      let grids := setGrid s.grids s.current_grid (old.set_active false)
      let s := { s with grids := grids, current_grid := gt.grid }
      let new ← lookupGrid s.grids gt.grid
      pure { s with grids := setGrid s.grids gt.grid (new.set_active true) }
    else
      pure s
  let g ← lookupGrid s.grids gt.grid
  pure { s with grids := setGrid s.grids gt.grid (g.cursor_goto gt.row gt.col) }

/-- From src/src/ui/ui.rs `handle_redraw_event`, `OptionSet` arm: take the
pending resize record, or build one from grid 1's current font and line
space when none is pending (`state.grids.get(&1).unwrap()`), overwrite the
field addressed by the option, and store the record back. -/
def processOption (cfg : Cfg) (s : UIState) (opt : OptionSet) :
    Option UIState :=
  match opt with
  | .guiFont str =>
    let font := (cfg.parseGuifont str).getD Font.default
    (match s.resize_on_flush with
     | some opts => some { s with resize_on_flush := some { opts with font := font } }
     | none => do
       let g1 ← lookupGrid s.grids 1
       let opts : ResizeOptions := { font := font, line_space := g1.get_line_space }
       pure { s with resize_on_flush := some opts })
  | .lineSpace val =>
    (match s.resize_on_flush with
     | some opts =>
       some { s with resize_on_flush := some { opts with line_space := val } }
     | none => do
       let g1 ← lookupGrid s.grids 1
       let opts : ResizeOptions := { font := g1.get_font, line_space := val }
       pure { s with resize_on_flush := some opts })
  | .notSupported _ => some s

/-- From src/src/ui/ui.rs `handle_redraw_event`, one event: each arm iterates
its batch-internal list in order; a failed `unwrap` (missing grid id, missing
highlight 0) is a panic, modelled as `none`. Alongside the next state the
effects issued to the outside are collected in order. -/
def processEvent (cfg : Cfg) (e : RedrawEvent) (s : UIState) :
    Option (UIState × List Effect) :=
  match e with
  | .gridLine lines =>
    lines.foldlM
      (fun acc line => do
        let g ← lookupGrid acc.1.grids line.grid
        let (g2, eff) := g.put_line line acc.1.hl_defs
        pure ({ acc.1 with grids := setGrid acc.1.grids line.grid g2 },
          acc.2 ++ eff))
      (s, [])
  | .gridCursorGoto gotos =>
    gotos.foldlM
      (fun acc gt => do
        let s2 ← processGoto acc.1 gt
        pure (s2, acc.2))
      (s, [])
  | .gridResize resizes =>
    resizes.foldlM
      (fun acc r => do
        let g ← lookupGrid acc.1.grids r.grid
        pure ({ acc.1 with
          grids := setGrid acc.1.grids r.grid (g.resize r.width r.height) },
          acc.2))
      (s, [])
  | .gridClear grids =>
    grids.foldlM
      (fun acc gid => do
        let g ← lookupGrid acc.1.grids gid
        pure ({ acc.1 with
          grids := setGrid acc.1.grids gid (g.clear acc.1.hl_defs) }, acc.2))
      (s, [])
  | .gridScroll scrolls =>
    scrolls.foldlM
      (fun acc info => do
        let g ← lookupGrid acc.1.grids info.grid
        pure ({ acc.1 with
          grids := setGrid acc.1.grids info.grid
            (g.scroll info.reg info.rows info.cols acc.1.hl_defs) },
          acc.2 ++ [Effect.autocmdScroll]))
      (s, [])
  | .defaultColorsSet sets =>
    sets.foldlM
      (fun acc dcs => do
        let s := acc.1
        let hl_defs := { s.hl_defs with
          default_fg := dcs.fg, default_bg := dcs.bg, default_sp := dcs.sp }
        let h0 ← hl_defs.get 0
        let h0 := { h0 with foreground := some dcs.fg, background := some dcs.bg, special := some dcs.sp }
        let hl_defs := hl_defs.insert 0 h0
        pure ({ s with hl_defs := hl_defs },
          acc.2 ++ s.grids.map (fun p => Effect.redraw p.1)))
      (s, [])
  | .hlAttrDefine defs =>
    defs.foldlM
      (fun acc d =>
        pure ({ acc.1 with hl_defs := acc.1.hl_defs.insert d.id d.hl }, acc.2))
      (s, [])
  | .optionSet opts =>
    opts.foldlM
      (fun acc opt => do
        let s2 ← processOption cfg acc.1 opt
        pure (s2, acc.2))
      (s, [])
  | .flush => do
    let flushEffs := s.grids.map (fun p => Effect.flushGrid p.1)
    match s.resize_on_flush with
    | none => pure (s, flushEffs)
    | some opts =>
      let grids2 := s.grids.map (fun p =>
        (p.1, p.2.update_cell_metrics cfg.fmOf opts.font opts.line_space))
      let metricEffs := s.grids.map (fun p =>
        Effect.updateMetrics p.1 opts.font opts.line_space)
      let s2 := { s with grids := grids2, resize_on_flush := none }
      let g1 ← lookupGrid s2.grids 1
      let sz := g1.calc_size
      let (cancelEffs, s3) :=
        match s2.resize_source_id with
        | some timer =>
          ([Effect.cancelResizeTimer timer], { s2 with resize_source_id := none })
        | none => ([], s2)
      pure (s3,
        flushEffs ++ metricEffs ++ cancelEffs ++ [Effect.uiTryResize sz.1 sz.2])

/-- From src/src/ui/ui.rs `handle_redraw_event`: the events of one batch are
applied strictly in arrival order; a panic anywhere aborts the whole run. -/
def handle_redraw_event (cfg : Cfg) :
    List RedrawEvent → UIState → Option (UIState × List Effect)
  | [], s => pure (s, [])
  | e :: rest, s => do
    let (s1, eff1) ← processEvent cfg e s
    let (s2, eff2) ← handle_redraw_event cfg rest s1
    pure (s2, eff1 ++ eff2)

/-- The debounce interval of the resize timer: `gtk::timeout_add(30, ...)` in
src/src/ui/ui.rs. -/
def debounceMs : Nat := 30

/-- The timed stimuli that touch the debounce timer: a drawing-area resize
signal carrying the new cell capacity (the `connect_da_resize` closure in
ui.rs), and a flush that applies a pending metrics change (the timer-cancel
in the `Flush` arm). -/
inductive DaEvent where
  | resizeSignal (rows cols : Int)
  | flushMetrics
deriving DecidableEq, Repr

/-- The state of the debounce machinery: the set of GTK timeouts currently
registered (`gtk::timeout_add` adds one, `glib::source_remove` and expiry
remove one), the dispatcher's stored handle `resize_source_id` together with
the arm time and the capacity the armed timer would send, and a counter for
fresh timer ids. -/
structure DebounceState where
  live : List Nat := []
  armed : Option (Nat × Nat × Int × Int) := none
  next_id : Nat := 0
deriving DecidableEq, Repr

/-- A fired debounce timer sends `ui_try_resize(cols, rows)`; recorded as
(expiry time, rows, cols). -/
abbrev FireRecord := Nat × Int × Int

/-- GTK timeout semantics: before the machine handles a stimulus at time `t`,
an armed timer whose expiry lies at or before `t` has already fired: it sends
the negotiation, unregisters itself and clears `resize_source_id` (the
closure takes the source id before returning `Continue(false)`). -/
def fireIfDue (t : Nat) (s : DebounceState) :
    DebounceState × List FireRecord :=
  match s.armed with
  | some (timer, at_, rows, cols) =>
    if at_ + debounceMs ≤ t then
      ({ s with live := s.live.erase timer, armed := none },
       [(at_ + debounceMs, rows, cols)])
    else (s, [])
  | none => (s, [])

/-- From src/src/ui/ui.rs lines 151-180 and 737-741: a resize signal
registers a new timeout, removes the previously stored one, and stores the
new handle (cancel-and-replace); a flush that applies a pending metrics
change takes and removes the stored handle. -/
def stepDa (t : Nat) (e : DaEvent) (s : DebounceState) : DebounceState :=
  match e with
  | .resizeSignal rows cols =>
    let timer := s.next_id
    let live := timer :: s.live
    let live :=
      match s.armed with
      | some (old, _, _, _) => live.erase old
      | none => live
    { live := live, armed := some (timer, t, rows, cols),
      next_id := s.next_id + 1 }
  | .flushMetrics =>
    match s.armed with
    | some (old, _, _, _) => { s with live := s.live.erase old, armed := none }
    | none => s

/-- One timed stimulus: the due timer (if any) fires first, then the stimulus
is handled. -/
def stepAt (t : Nat) (e : DaEvent) (s : DebounceState) :
    DebounceState × List FireRecord :=
  let (s1, fires) := fireIfDue t s
  (stepDa t e s1, fires)

/-- Run the machine over a time-ordered schedule; after the last stimulus the
armed timer (if any) is left to expire, so its negotiation is appended. -/
def runDebounce : List (Nat × DaEvent) → DebounceState →
    List FireRecord × DebounceState
  | [], s =>
    (match s.armed with
     | some (timer, at_, rows, cols) =>
       ([(at_ + debounceMs, rows, cols)],
        { s with live := s.live.erase timer, armed := none })
     | none => ([], s))
  | (t, e) :: rest, s =>
    let (s1, fires) := stepAt t e s
    let (fires2, s2) := runDebounce rest s1
    (fires ++ fires2, s2)

/-- The state after a prefix of the schedule (never firing past the prefix;
used to speak about the machine at intermediate points in time). -/
def runDebounceSt : List (Nat × DaEvent) → DebounceState → DebounceState
  | [], s => s
  | (t, e) :: rest, s => runDebounceSt rest (stepAt t e s).1

/-- The specification-side description of debouncing: a resize signal leads
to a negotiation exactly when no further stimulus arrives strictly within the
debounce interval; every other signal is cancelled-and-replaced, and a flush
with a metrics change cancels as well. -/
def debouncedFires : List (Nat × DaEvent) → List FireRecord
  | [] => []
  | (t, .resizeSignal rows cols) :: rest =>
    (match rest with
     | [] => [(t + debounceMs, rows, cols)]
     | (t2, _) :: _ =>
       if t + debounceMs ≤ t2 then [(t + debounceMs, rows, cols)] else []) ++
      debouncedFires rest
  | (_, .flushMetrics) :: rest => debouncedFires rest

/-- The negotiation the currently armed timer (if any) will contribute,
given the upcoming schedule: it fires at its expiry unless the next stimulus
arrives strictly within the debounce interval (which cancels it). -/
def armedFires (armed : Option (Nat × Nat × Int × Int)) :
    List (Nat × DaEvent) → List FireRecord
  | [] =>
    (match armed with
     | some (_, a, rows, cols) => [(a + debounceMs, rows, cols)]
     | none => [])
  | (t, _) :: _ =>
    (match armed with
     | some (_, a, rows, cols) =>
       if a + debounceMs ≤ t then [(a + debounceMs, rows, cols)] else []
     | none => [])

/-- The well-formedness invariant of the debounce state: the registered
timeouts are exactly the armed one (so at most one pending timer), and all
registered ids are below the fresh counter. -/
def DebounceInv (s : DebounceState) : Prop :=
  s.live = (s.armed.map (fun q => q.1)).toList ∧
  ∀ timer, timer ∈ s.live → timer < s.next_id

/-- Only the grid the current-grid pointer names may be active. -/
def onlyCurrentActive (s : UIState) : Prop :=
  ∀ p ∈ s.grids, p.2.context.active = true → p.1 = s.current_grid

/-- The grid the current-grid pointer names exists and is active. -/
def currentActive (s : UIState) : Prop :=
  ∃ g, lookupGrid s.grids s.current_grid = some g ∧ g.context.active = true

/-- The number of active grids in the dispatcher's collection. -/
def countActive (s : UIState) : Nat :=
  (s.grids.filter (fun p => p.2.context.active)).length

/-- The grid collection binds each id at most once (true of a HashMap). -/
def NodupKeys (s : UIState) : Prop :=
  (s.grids.map Prod.fst).Nodup

/-- Whether a run of cursor-goto events contains one that targets a grid
other than the one current when it is applied. -/
def crossGotoInGotos : List GridCursorGoto → UIState → Bool
  | [], _ => false
  | gt :: rest, s =>
    (gt.grid != s.current_grid) ||
      (match processGoto s gt with
       | some s2 => crossGotoInGotos rest s2
       | none => false)

/-- Whether a batch contains a cursor-goto event that targets a grid other
than the one current when it is applied. -/
def crossGotoInBatch (cfg : Cfg) : List RedrawEvent → UIState → Bool
  | [], _ => false
  | e :: rest, s =>
    (match e with
     | .gridCursorGoto gotos => crossGotoInGotos gotos s
     | _ => false) ||
      (match processEvent cfg e s with
       | some (s2, _) => crossGotoInBatch cfg rest s2
       | none => false)

/-- The relation a single dispatcher step preserves: grid keys unchanged,
"only the current grid may be active" preserved, and "the current grid is
active" preserved. -/
def StepRel (s s2 : UIState) : Prop :=
  s2.grids.map Prod.fst = s.grids.map Prod.fst ∧
  (onlyCurrentActive s → onlyCurrentActive s2) ∧
  (onlyCurrentActive s → currentActive s → currentActive s2)

def Effect.isUiTryResize : Effect → Bool
  | .uiTryResize _ _ => true
  | _ => false

def Effect.isUpdateMetrics : Effect → Bool
  | .updateMetrics _ _ _ => true
  | _ => false

/-- Sample pango metrics: ascent 14, descent 4, digit width 8, underline one
unit below the baseline, one unit thick (all in pango units of 1024). -/
def exFm : FontMetrics :=
  { ascent := 14336, descent := 4096, approx_digit_width := 8192,
    underline_position := -1024, underline_thickness := 1024 }

/-- Sample environment whose guifont parser always fails. -/
def exCfg : Cfg := { fmOf := fun _ => exFm, parseGuifont := fun _ => none }

def exFont : Font := { name := "Hack", height := 14 }

/-- Sample environment whose guifont parser always succeeds with `exFont`. -/
def exCfgParse : Cfg := { fmOf := fun _ => exFm, parseGuifont := fun _ => some exFont }

def exMetrics : CellMetrics := CellMetrics.update (fun _ => exFm) {}

/-- A row holding a double-width occupant at columns 3-4. -/
def exRowDW : Row := ⟨[Leaf.blank 3, ⟨"宽", 1, true, 2⟩, Leaf.blank 5]⟩

/-- A context whose cursor at (0, 2) sits right before the double-width
occupant covering column 3. -/
def exCtxDW : Context :=
  { cell_metrics := exMetrics, rows := [exRowDW], cursor := (0, 2) }

def exGrid1 : Grid :=
  { id := 1,
    context := { cell_metrics := exMetrics, rows := [Row.blank 10, Row.blank 10] },
    da_width := 80, da_height := 54 }

def exGrid2 : Grid :=
  { id := 2, context := { cell_metrics := exMetrics, rows := [Row.blank 10] } }

/-- The highlight table as `UI::init` builds it: entry 0 defined. -/
def exHlDefs : HlDefs := HlDefs.insert {} 0 Highlight.default

def exState : UIState :=
  { grids := [(1, exGrid1)], hl_defs := exHlDefs, current_grid := 1 }

def exState2 : UIState :=
  { grids := [(1, exGrid1), (2, exGrid2)], hl_defs := exHlDefs, current_grid := 1 }

def exHl5 : Highlight := { foreground := some ⟨255⟩, bold := true }

/-- A grid-line write on grid 1 whose cells all use highlight id 5. -/
def exLine5 : GridLineData :=
  { grid := 1, row := 0, col_start := 2,
    cells := [⟨"H", 5, false⟩, ⟨"I", 5, false⟩], repeat_extra := 0 }

/-- The state `exState2` (grids 1 and 2, grid 1 current, none active)
reaches after a cursor-goto to grid 2 at (3, 4): grid 1 deactivated, grid 2
activated and holding the cursor, pointer switched. -/
def exState2After : UIState :=
  { exState2 with
    grids := [(1, exGrid1.set_active false),
              (2, (exGrid2.set_active true).cursor_goto 3 4)],
    current_grid := 2 }

/-- A sample timer schedule: two rapid resize signals, a quiet period, a
flush with a metrics change, then a final isolated signal. -/
def exSch : List (Nat × DaEvent) :=
  [(0, .resizeSignal 10 20), (10, .resizeSignal 11 21), (100, .flushMetrics),
   (200, .resizeSignal 5 5)]

/-- The pending record an unparsable guifont option-set leaves behind at
`exState`: the built-in default font and grid 1's current line space. -/
def exOptsGF : ResizeOptions :=
  { font := Font.default, line_space := exGrid1.get_line_space }

/-- The state `exState` reaches after a guifont option-set whose string does
not parse. -/
def exStateGF : UIState :=
  { exState with resize_on_flush := some exOptsGF }

/-- A resize-pending state: a pending { font, line_space } record and an
armed debounce timer (id 42). -/
def exStateP : UIState :=
  { exState with
    resize_on_flush := some ⟨exFont, 2⟩, resize_source_id := some 42 }

/-- Grid 1 of `exStateP` after the pending record is applied at flush. -/
def exGrid1P : Grid := exGrid1.update_cell_metrics exCfg.fmOf exFont 2

/-- The state `exStateP` reaches at the flush boundary: record applied to
every grid, pending record cleared, debounce timer cancelled. -/
def exStateP2 : UIState :=
  { exStateP with
    grids := [(1, exGrid1P)], resize_on_flush := none,
    resize_source_id := none }

/-- The effects the flush at `exStateP` issues, in order. -/
def exFlushEffs : List Effect :=
  [Effect.flushGrid 1, Effect.updateMetrics 1 exFont 2,
   Effect.cancelResizeTimer 42,
   Effect.uiTryResize exGrid1P.calc_size.1 exGrid1P.calc_size.2]

theorem lookupGrid_nil (k : Nat) : lookupGrid [] k = none := rfl

theorem lookupGrid_cons (p : Nat × Grid) (rest : List (Nat × Grid)) (k : Nat) :
    lookupGrid (p :: rest) k = if p.1 = k then some p.2 else lookupGrid rest k := by
  by_cases h : p.1 = k
  · simp [lookupGrid, List.find?, h]
  · have h2 : (p.1 == k) = false := by simp [h]
    rw [lookupGrid, List.find?, h2]
    simp [lookupGrid, h]

theorem setGrid_nil (k : Nat) (v : Grid) : setGrid [] k v = [] := rfl

theorem setGrid_cons (p : Nat × Grid) (rest : List (Nat × Grid)) (k : Nat)
    (v : Grid) :
    setGrid (p :: rest) k v
      = (if p.1 = k then (p.1, v) else p) :: setGrid rest k v := by
  simp only [setGrid, List.map_cons]

theorem lookupGrid_mem {gs : List (Nat × Grid)} {k : Nat} {g : Grid}
    (h : lookupGrid gs k = some g) : (k, g) ∈ gs := by
  induction gs with
  | nil => simp [lookupGrid_nil] at h
  | cons p rest ih =>
    rw [lookupGrid_cons] at h
    by_cases hk : p.1 = k
    · rw [if_pos hk] at h
      have : p = (k, g) := by
        cases p
        simp only [Option.some.injEq] at h
        simp_all
      rw [← this]
      exact List.mem_cons_self _ _
    · rw [if_neg hk] at h
      exact List.mem_cons_of_mem _ (ih h)

theorem lookupGrid_setGrid_self {gs : List (Nat × Grid)} {k : Nat} {g : Grid}
    (h : lookupGrid gs k = some g) (v : Grid) :
    lookupGrid (setGrid gs k v) k = some v := by
  induction gs with
  | nil => simp [lookupGrid_nil] at h
  | cons p rest ih =>
    rw [lookupGrid_cons] at h
    rw [setGrid_cons, lookupGrid_cons]
    by_cases hk : p.1 = k
    · simp [hk]
    · rw [if_neg hk] at h
      simp only [if_neg hk]
      exact ih h

theorem lookupGrid_setGrid_ne (gs : List (Nat × Grid)) {j k : Nat}
    (h : j ≠ k) (v : Grid) :
    lookupGrid (setGrid gs k v) j = lookupGrid gs j := by
  induction gs with
  | nil => simp [setGrid_nil]
  | cons p rest ih =>
    rw [setGrid_cons, lookupGrid_cons, lookupGrid_cons]
    by_cases hk : p.1 = k
    · have hj : ¬p.1 = j := fun hh => h (by rw [← hh, hk])
      simp only [if_pos hk]
      simp only [hk]
      rw [if_neg (show ¬k = j from fun hh => h hh.symm),
        if_neg (show ¬k = j from fun hh => h hh.symm)]
      exact ih
    · rw [if_neg hk]
      by_cases hj : p.1 = j
      · rw [if_pos hj, if_pos hj]
      · rw [if_neg hj, if_neg hj]
        exact ih

theorem setGrid_of_lookup_none {gs : List (Nat × Grid)} {k : Nat}
    (h : lookupGrid gs k = none) (v : Grid) : setGrid gs k v = gs := by
  induction gs with
  | nil => rfl
  | cons p rest ih =>
    rw [lookupGrid_cons] at h
    by_cases hk : p.1 = k
    · rw [if_pos hk] at h
      exact absurd h (by simp)
    · rw [if_neg hk] at h
      rw [setGrid_cons, if_neg hk, ih h]

theorem lookupGrid_setGrid_none {gs : List (Nat × Grid)} {k j : Nat}
    (h : lookupGrid gs j = none) (v : Grid) :
    lookupGrid (setGrid gs k v) j = none := by
  by_cases hj : j = k
  · subst hj
    rw [setGrid_of_lookup_none h v]
    exact h
  · rw [lookupGrid_setGrid_ne gs hj v]
    exact h

theorem lookupGrid_map_value (gs : List (Nat × Grid)) (f : Grid → Grid)
    (k : Nat) :
    lookupGrid (gs.map (fun p => (p.1, f p.2))) k = (lookupGrid gs k).map f := by
  induction gs with
  | nil => simp [lookupGrid_nil]
  | cons p rest ih =>
    rw [List.map_cons, lookupGrid_cons, lookupGrid_cons]
    by_cases hk : p.1 = k
    · simp [hk]
    · simp only [if_neg hk]
      rw [ih]

theorem setGrid_keys (gs : List (Nat × Grid)) (k : Nat) (v : Grid) :
    (setGrid gs k v).map Prod.fst = gs.map Prod.fst := by
  induction gs with
  | nil => rfl
  | cons p rest ih =>
    rw [setGrid_cons, List.map_cons, List.map_cons, ih]
    by_cases hk : p.1 = k
    · rw [if_pos hk]
    · rw [if_neg hk]

theorem mem_setGrid {gs : List (Nat × Grid)} {k : Nat} {v : Grid}
    {p : Nat × Grid} (h : p ∈ setGrid gs k v) :
    (p ∈ gs ∧ p.1 ≠ k) ∨ p = (k, v) := by
  rcases List.mem_map.mp h with ⟨q, hq, hqe⟩
  by_cases hk : q.1 = k
  · right
    rw [← hqe]
    simp [hk]
  · left
    rw [← hqe]
    simp only [hk, if_false]
    exact ⟨hq, hk⟩

theorem hldefs_get_cons (d : HlDefs) (p : Nat × Highlight)
    (l : List (Nat × Highlight)) (id : Nat) :
    HlDefs.get { d with hl_defs := p :: l } id
      = if p.1 = id then some p.2 else HlDefs.get { d with hl_defs := l } id := by
  by_cases h : p.1 = id
  · simp [HlDefs.get, List.find?, h]
  · have h2 : (p.1 == id) = false := by simp [h]
    rw [HlDefs.get, List.find?, h2]
    simp [HlDefs.get, h]

theorem hldefs_get_insert_self (d : HlDefs) (id : Nat) (hl : Highlight) :
    (d.insert id hl).get id = some hl := by
  rw [HlDefs.insert]
  rw [show ({ d with hl_defs := (id, hl) :: d.hl_defs.filter (fun p => p.1 ≠ id) } : HlDefs)
      = { { d with hl_defs := d.hl_defs.filter (fun p => p.1 ≠ id) } with
          hl_defs := (id, hl) :: d.hl_defs.filter (fun p => p.1 ≠ id) } from rfl]
  rw [hldefs_get_cons]
  simp

theorem find?_hl_cons (p : Nat × Highlight) (l : List (Nat × Highlight))
    (id : Nat) :
    List.find? (fun q => q.1 == id) (p :: l)
      = if p.1 = id then some p
        else List.find? (fun q => q.1 == id) l := by
  by_cases h : p.1 = id
  · rw [List.find?]
    have h2 : (p.1 == id) = true := by simp [h]
    rw [h2, if_pos h]
  · rw [List.find?]
    have h2 : (p.1 == id) = false := by simp [h]
    rw [h2, if_neg h]

theorem hldefs_get_filter_ne (d : HlDefs) (l : List (Nat × Highlight))
    {k id : Nat} (h : id ≠ k) :
    HlDefs.get { d with hl_defs := l.filter (fun p => p.1 ≠ k) } id
      = HlDefs.get { d with hl_defs := l } id := by
  rw [HlDefs.get, HlDefs.get]
  congr 1
  induction l with
  | nil => rfl
  | cons p rest ih =>
    rw [List.filter_cons]
    by_cases hk : p.1 = k
    · have hd : (decide (p.1 ≠ k)) = false := by simp [hk]
      rw [hd]
      simp only [Bool.false_eq_true, if_false]
      rw [ih, find?_hl_cons,
        if_neg (show ¬p.1 = id from fun hh => h (by rw [← hh, hk]))]
    · have hd : (decide (p.1 ≠ k)) = true := by simp [hk]
      rw [hd]
      simp only [if_true]
      rw [find?_hl_cons, find?_hl_cons, ih]

theorem hldefs_get_insert_ne (d : HlDefs) {k id : Nat} (h : id ≠ k)
    (hl : Highlight) : (d.insert k hl).get id = d.get id := by
  rw [HlDefs.insert]
  rw [show ({ d with hl_defs := (k, hl) :: d.hl_defs.filter (fun p => p.1 ≠ k) } : HlDefs)
      = { { d with hl_defs := d.hl_defs.filter (fun p => p.1 ≠ k) } with
          hl_defs := (k, hl) :: d.hl_defs.filter (fun p => p.1 ≠ k) } from rfl]
  rw [hldefs_get_cons, if_neg (fun hh => h hh.symm)]
  exact hldefs_get_filter_ne d d.hl_defs h

theorem hldefs_get_ignores_defaults (d : HlDefs) (fg bg sp : Color) (id : Nat) :
    HlDefs.get { d with default_fg := fg, default_bg := bg, default_sp := sp } id
      = d.get id := rfl

theorem new_chunks_isSome_aux (d : HlDefs) (content : List (Nat × String)) :
    ∀ acc : List (Highlight × String),
      (content.foldlM
        (fun acc chunk =>
          (d.get chunk.1).map (fun hl => acc ++ [(hl, chunk.2)])) acc).isSome
        = true ↔ ∀ c ∈ content, (d.get c.1).isSome = true := by
  induction content with
  | nil => intro acc; simp
  | cons c rest ih =>
    intro acc
    rw [List.foldlM_cons]
    cases hget : d.get c.1 with
    | none =>
      simp only [hget, Option.map_none']
      constructor
      · intro hcon
        exact absurd hcon (by simp [Option.bind])
      · intro hall
        have := hall c (List.mem_cons_self _ _)
        rw [hget] at this
        exact absurd this (by simp)
    | some hl =>
      simp only [hget, Option.map_some']
      have hbind :
          (some (acc ++ [(hl, c.2)]) >>= fun b =>
            rest.foldlM (fun acc chunk =>
              (d.get chunk.1).map (fun hl => acc ++ [(hl, chunk.2)])) b)
          = rest.foldlM (fun acc chunk =>
              (d.get chunk.1).map (fun hl => acc ++ [(hl, chunk.2)]))
              (acc ++ [(hl, c.2)]) := rfl
      rw [hbind, ih]
      constructor
      · intro hall c2 hc2
        rcases List.mem_cons.mp hc2 with hc2 | hc2
        · rw [hc2, hget]; rfl
        · exact hall c2 hc2
      · intro hall c2 hc2
        exact hall c2 (List.mem_cons_of_mem _ hc2)

/-- C6: `CellMetrics::update` derives ascent as the font's reported ascent
plus half the line space, descent likewise, height as their sum (the
invariant `height = ascent + descent`), the underline position as the font's
reported position shifted by the same half-line-space padding, and the
underline thickness as the font's reported thickness doubled; and the only
other mutation path in src, `Context::update_metrics`, also goes through this
recomputation from the font and line-space pair. -/
theorem cell_metrics_update_spec (fmOf : Font → FontMetrics)
    (cm : CellMetrics) (ctx : Context) (font : Font) (line_space : Int) :
    (CellMetrics.update fmOf cm).ascent
        = ((fmOf cm.font).ascent : ℚ) / (pangoSCALE : ℚ)
            + (cm.line_space : ℚ) / 2 ∧
    (CellMetrics.update fmOf cm).decent
        = ((fmOf cm.font).descent : ℚ) / (pangoSCALE : ℚ)
            + (cm.line_space : ℚ) / 2 ∧
    (CellMetrics.update fmOf cm).height
        = (CellMetrics.update fmOf cm).ascent
            + (CellMetrics.update fmOf cm).decent ∧
    (CellMetrics.update fmOf cm).underline_position
        = ((fmOf cm.font).underline_position : ℚ) / (pangoSCALE : ℚ)
            - (cm.line_space : ℚ) / 2 ∧
    (CellMetrics.update fmOf cm).underline_thickness
        = ((fmOf cm.font).underline_thickness : ℚ) / (pangoSCALE : ℚ) * 2 ∧
    (Context.update_metrics fmOf ctx font line_space).cell_metrics
        = CellMetrics.update fmOf
            { ctx.cell_metrics with font := font, line_space := line_space } :=
  ⟨rfl, rfl, rfl, rfl, rfl, rfl⟩

/-- C7: the cursor rectangle of `Context::get_cursor_rect` has
`x = col * cell_width`, `y = row * cell_height`, height one cell; its width
is two cell widths when the run covering column `col + 1` of the cursor's row
is a double-width occupant and one cell width when that run is not (or when
no run covers the column); and an out-of-range cursor row falls back to one
cell width instead of signalling an error. -/
theorem cursor_rect_spec (ctx : Context) :
    (ctx.get_cursor_rect).1 = (ctx.cursor.2 : ℚ) * ctx.cell_metrics.width ∧
    (ctx.get_cursor_rect).2.1 = (ctx.cursor.1 : ℚ) * ctx.cell_metrics.height ∧
    (ctx.get_cursor_rect).2.2.2 = ctx.cell_metrics.height ∧
    (∀ row leaf, ctx.rows.get? ctx.cursor.1 = some row →
      row.leaf_at (ctx.cursor.2 + 1) = some leaf →
      (ctx.get_cursor_rect).2.2.1
        = if leaf.double_width then ctx.cell_metrics.width * 2
          else ctx.cell_metrics.width) ∧
    (∀ row, ctx.rows.get? ctx.cursor.1 = some row →
      row.leaf_at (ctx.cursor.2 + 1) = none →
      (ctx.get_cursor_rect).2.2.1 = ctx.cell_metrics.width) ∧
    (ctx.rows.get? ctx.cursor.1 = none →
      (ctx.get_cursor_rect).2.2.1 = ctx.cell_metrics.width) := by
  refine ⟨rfl, rfl, rfl, ?_, ?_, ?_⟩
  · intro row leaf hrow hleaf
    rw [List.get?_eq_getElem?] at hrow
    simp [Context.get_cursor_rect, hrow, hleaf]
  · intro row hrow hleaf
    rw [List.get?_eq_getElem?] at hrow
    simp [Context.get_cursor_rect, hrow, hleaf]
  · intro hrow
    rw [List.get?_eq_getElem?] at hrow
    simp [Context.get_cursor_rect, hrow]

/-- C7 witness: at the sample context (cursor (0, 2), a double-width
occupant covering column 3) the rectangle is two cells wide and located at
(16, 0) with height 18. -/
theorem cursor_rect_spec_witness :
    exCtxDW.rows.get? exCtxDW.cursor.1 = some exRowDW ∧
    exRowDW.leaf_at (exCtxDW.cursor.2 + 1) = some ⟨"宽", 1, true, 2⟩ ∧
    (exCtxDW.get_cursor_rect).2.2.1 = exCtxDW.cell_metrics.width * 2 := by
  refine ⟨by decide, by decide, ?_⟩
  have h := (cursor_rect_spec exCtxDW).2.2.2.1 exRowDW ⟨"宽", 1, true, 2⟩
    (by decide) (by decide)
  rw [h]
  rfl

/-- C2 counterexample: with the highlight table as `UI::init` builds it (only
id 0 defined), looking up id 5 returns nothing at all — not the default
(id 0) definition, which does exist — and the caller `Message::new` panics on
that undefined id instead of being shielded from the failure. -/
theorem hldefs_lookup_counterexample :
    HlDefs.get exHlDefs 5 = none ∧
    HlDefs.get exHlDefs 0 = some Highlight.default ∧
    Message.new_chunks [(5, "x")] exHlDefs = none := by
  decide

/-- C2 (amended): `HlDefs::get` returns the definition when the id is
defined and `None` otherwise — it does not fall back to the default (id 0)
definition — and a caller such as `Message::new`, which unwraps the lookup,
succeeds exactly when every id it resolves is defined. -/
theorem hldefs_lookup_amended (d : HlDefs) (id : Nat) (hl : Highlight)
    (content : List (Nat × String)) :
    ((d.insert id hl).get id = some hl) ∧
    ((Message.new_chunks content d).isSome = true ↔
      ∀ c ∈ content, (d.get c.1).isSome = true) :=
  ⟨hldefs_get_insert_self d id hl, new_chunks_isSome_aux d content []⟩

/-- C1 counterexample: grid 2 is absent from the collection of `exState`; a
grid-line write addressed to it makes the whole redraw handler panic
(`none`) — the event is not dropped and the rest of the batch (here a flush)
is never processed, refuting "the event is dropped ... and processing of the
event stream continues; the program never crashes". -/
theorem missing_grid_id_counterexample :
    lookupGrid exState.grids 2 = none ∧
    handle_redraw_event exCfg
      [.gridLine [⟨2, 0, 0, [⟨"a", 0, false⟩], 0⟩], .flush] exState = none := by
  constructor
  · decide
  · rfl

/-- C1 (amended): for every redraw event that carries a target grid id
(grid line write, grid clear, grid scroll, grid resize, grid cursor goto),
if the id references a grid not present in the dispatcher's grid collection,
the handler unwraps the failed lookup and panics: the event is not dropped
and processing of the event stream does not continue. -/
theorem missing_grid_id_panics (cfg : Cfg) (s : UIState) (gid : Nat)
    (hmiss : lookupGrid s.grids gid = none) :
    (∀ row col_start cells rep,
      processEvent cfg
        (.gridLine [⟨gid, row, col_start, cells, rep⟩]) s = none) ∧
    (∀ row col,
      processEvent cfg (.gridCursorGoto [⟨gid, row, col⟩]) s = none) ∧
    (∀ w h, processEvent cfg (.gridResize [⟨gid, w, h⟩]) s = none) ∧
    (processEvent cfg (.gridClear [gid]) s = none) ∧
    (∀ reg dr dc,
      processEvent cfg (.gridScroll [⟨gid, reg, dr, dc⟩]) s = none) := by
  have hgoto : ∀ row col, processGoto s ⟨gid, row, col⟩ = none := by
    intro row col
    rw [processGoto]
    by_cases hcur : gid = s.current_grid
    · rw [hcur] at hmiss
      simp [hcur, hmiss]
    · cases hold : lookupGrid s.grids s.current_grid with
      | none => simp [hcur, hold]
      | some old =>
        have h2 : lookupGrid
            (setGrid s.grids s.current_grid (old.set_active false)) gid
              = none :=
          lookupGrid_setGrid_none hmiss _
        simp [hcur, hold, h2]
  refine ⟨?_, ?_, ?_, ?_, ?_⟩
  · intro row col_start cells rep
    simp [processEvent, List.foldlM_cons, hmiss]
  · intro row col
    simp [processEvent, List.foldlM_cons, hgoto]
  · intro w h
    simp [processEvent, List.foldlM_cons, hmiss]
  · simp [processEvent, List.foldlM_cons, hmiss]
  · intro reg dr dc
    simp [processEvent, List.foldlM_cons, hmiss]

/-- C1 witness: applying the amended claim at `exState` (grids = {1}) and the
absent grid id 7. -/
theorem missing_grid_id_panics_witness :
    processEvent exCfg (.gridClear [7]) exState = none :=
  (missing_grid_id_panics exCfg exState 7 (by decide)).2.2.2.1

/-- C10: when the guifont string of a font option-set event fails to parse,
the event is not dropped and the previous font is not kept: the pending
resize record is set with the built-in default font (and the line space the
record would otherwise have carried). -/
theorem guifont_parse_failure_uses_default (cfg : Cfg) (s s2 : UIState)
    (str : String) (effs : List Effect)
    (hparse : cfg.parseGuifont str = none)
    (hrun : processEvent cfg (.optionSet [.guiFont str]) s = some (s2, effs)) :
    ∃ opts, s2.resize_on_flush = some opts ∧ opts.font = Font.default ∧
      ∀ o0, s.resize_on_flush = some o0 → opts.line_space = o0.line_space := by
  simp only [processEvent, List.foldlM_cons, List.foldlM_nil] at hrun
  rw [processOption, hparse] at hrun
  cases hro : s.resize_on_flush with
  | some o0 =>
    rw [hro] at hrun
    simp at hrun
    refine ⟨{ o0 with font := Font.default }, ?_, rfl, ?_⟩
    · rw [← hrun.1]
    · intro o1 ho1
      cases ho1
      rfl
  | none =>
    rw [hro] at hrun
    cases hg1 : lookupGrid s.grids 1 with
    | none =>
      rw [hg1] at hrun
      simp at hrun
    | some g1 =>
      rw [hg1] at hrun
      simp at hrun
      refine ⟨{ font := Font.default, line_space := g1.get_line_space },
        ?_, rfl, ?_⟩
      · rw [← hrun.1]
      · intro o1 ho1
        simp at ho1

/-- C10 witness: at `exState` (no pending record, grid 1 present) and the
always-failing parser of `exCfg`, the pending record after the event holds
the default font. -/
theorem guifont_parse_failure_witness :
    ∃ opts, exStateGF.resize_on_flush = some opts ∧
      opts.font = Font.default ∧
      ∀ o0, exState.resize_on_flush = some o0 →
        opts.line_space = o0.line_space :=
  guifont_parse_failure_uses_default exCfg exState exStateGF "bogus" []
    rfl (by rfl)

/-- C8: a default-colors-set event rewrites entry 0's foreground, background
and special fields in place to the new colors, preserves entry 0's style
flags (the result is `h0` with only those three fields changed), leaves every
other highlight entry unchanged, updates the process-wide defaults, and
re-renders every grid (one redraw effect per grid, grids otherwise
untouched). -/
theorem default_colors_set_spec (cfg : Cfg) (s : UIState) (fg bg sp : Color)
    (h0 : Highlight) (hget : s.hl_defs.get 0 = some h0) :
    ∃ d2 : HlDefs,
      processEvent cfg (.defaultColorsSet [⟨fg, bg, sp⟩]) s
          = some ({ s with hl_defs := d2 },
              s.grids.map (fun p => Effect.redraw p.1)) ∧
      d2.get 0 = some ({ h0 with
        foreground := some fg, background := some bg, special := some sp }) ∧
      (∀ id, id ≠ 0 → d2.get id = s.hl_defs.get id) ∧
      d2.default_fg = fg ∧ d2.default_bg = bg ∧ d2.default_sp = sp := by
  have hget1 : HlDefs.get { s.hl_defs with
      default_fg := fg, default_bg := bg, default_sp := sp } 0 = some h0 :=
    hget
  refine ⟨HlDefs.insert { s.hl_defs with
      default_fg := fg, default_bg := bg, default_sp := sp } 0 ({ h0 with
      foreground := some fg, background := some bg, special := some sp }),
    ?_, ?_, ?_, rfl, rfl, rfl⟩
  · simp only [processEvent, List.foldlM_cons, List.foldlM_nil, hget1,
      Option.some_bind, Option.pure_def, List.nil_append]
    rfl
  · exact hldefs_get_insert_self _ _ _
  · intro id hid
    rw [hldefs_get_insert_ne _ hid]
    rfl

/-- C8 witness: at `exState` (entry 0 = the all-default highlight), setting
default colors (1, 2, 3) yields entry 0 with exactly those colors, flags
still off, and a redraw of grid 1. -/
theorem default_colors_set_witness :
    ∃ d2 : HlDefs,
      processEvent exCfg (.defaultColorsSet [⟨⟨1⟩, ⟨2⟩, ⟨3⟩⟩]) exState
          = some ({ exState with hl_defs := d2 },
              exState.grids.map (fun p => Effect.redraw p.1)) ∧
      d2.get 0 = some ({ Highlight.default with
        foreground := some ⟨1⟩, background := some ⟨2⟩, special := some ⟨3⟩ }) ∧
      (∀ id, id ≠ 0 → d2.get id = exState.hl_defs.get id) ∧
      d2.default_fg = ⟨1⟩ ∧ d2.default_bg = ⟨2⟩ ∧ d2.default_sp = ⟨3⟩ :=
  default_colors_set_spec exCfg exState ⟨1⟩ ⟨2⟩ ⟨3⟩ Highlight.default
    (by decide)

/-- C3: the pending-resize lifecycle. A font or line-space option-set event
moves the dispatcher to resize-pending, accumulating a single
{ font, line_space } record: with a record already pending only the addressed
field is overwritten; from idle the other field is seeded from grid 1's
current value. At a flush with a pending record, the record is applied to
every grid exactly once (state equation and one updateMetrics effect per
grid), one capacity computation is made against grid 1 and exactly one
resize negotiation carrying it is issued, the debounce timer is cancelled and
the pending record is cleared (back to idle); a flush without a pending
record changes nothing and negotiates nothing. -/
theorem resize_pending_lifecycle (cfg : Cfg) (s : UIState) :
    (∀ str opts, s.resize_on_flush = some opts →
      processEvent cfg (.optionSet [.guiFont str]) s
        = some ({ s with resize_on_flush := some { opts with font := (cfg.parseGuifont str).getD Font.default } }, [])) ∧
    (∀ v opts, s.resize_on_flush = some opts →
      processEvent cfg (.optionSet [.lineSpace v]) s
        = some ({ s with resize_on_flush := some { opts with line_space := v } }, [])) ∧
    (∀ str g1, s.resize_on_flush = none → lookupGrid s.grids 1 = some g1 →
      processEvent cfg (.optionSet [.guiFont str]) s
        = some ({ s with resize_on_flush := some ⟨(cfg.parseGuifont str).getD Font.default, g1.get_line_space⟩ }, [])) ∧
    (∀ v g1, s.resize_on_flush = none → lookupGrid s.grids 1 = some g1 →
      processEvent cfg (.optionSet [.lineSpace v]) s
        = some ({ s with resize_on_flush := some ⟨g1.get_font, v⟩ }, [])) ∧
    (∀ opts s2 effs, s.resize_on_flush = some opts →
      processEvent cfg .flush s = some (s2, effs) →
      s2.resize_on_flush = none ∧
      s2.resize_source_id = none ∧
      s2.grids = s.grids.map (fun p =>
        (p.1, p.2.update_cell_metrics cfg.fmOf opts.font opts.line_space)) ∧
      effs.filter Effect.isUpdateMetrics
        = s.grids.map (fun p =>
            Effect.updateMetrics p.1 opts.font opts.line_space) ∧
      (∃ g1, lookupGrid s.grids 1 = some g1 ∧
        effs.filter Effect.isUiTryResize
          = [Effect.uiTryResize
              (g1.update_cell_metrics cfg.fmOf opts.font opts.line_space).calc_size.1
              (g1.update_cell_metrics cfg.fmOf opts.font opts.line_space).calc_size.2])) ∧
    (s.resize_on_flush = none →
      processEvent cfg .flush s
        = some (s, s.grids.map (fun p => Effect.flushGrid p.1))) := by
  have hfm : ∀ (gs : List (Nat × Grid)),
      (gs.map (fun p => Effect.flushGrid p.1)).filter Effect.isUiTryResize
        = [] := by
    intro gs
    rw [List.filter_eq_nil_iff]
    intro a ha
    rcases List.mem_map.mp ha with ⟨p, _, hp⟩
    rw [← hp]
    simp [Effect.isUiTryResize]
  have hfm2 : ∀ (gs : List (Nat × Grid)) (f : Font) (ls : Int),
      (gs.map (fun p => Effect.updateMetrics p.1 f ls)).filter
          Effect.isUiTryResize = [] := by
    intro gs f ls
    rw [List.filter_eq_nil_iff]
    intro a ha
    rcases List.mem_map.mp ha with ⟨p, _, hp⟩
    rw [← hp]
    simp [Effect.isUiTryResize]
  have hum : ∀ (gs : List (Nat × Grid)),
      (gs.map (fun p => Effect.flushGrid p.1)).filter Effect.isUpdateMetrics
        = [] := by
    intro gs
    rw [List.filter_eq_nil_iff]
    intro a ha
    rcases List.mem_map.mp ha with ⟨p, _, hp⟩
    rw [← hp]
    simp [Effect.isUpdateMetrics]
  have hum2 : ∀ (gs : List (Nat × Grid)) (f : Font) (ls : Int),
      (gs.map (fun p => Effect.updateMetrics p.1 f ls)).filter
          Effect.isUpdateMetrics
        = gs.map (fun p => Effect.updateMetrics p.1 f ls) := by
    intro gs f ls
    rw [List.filter_eq_self]
    intro a ha
    rcases List.mem_map.mp ha with ⟨p, _, hp⟩
    rw [← hp]
    simp [Effect.isUpdateMetrics]
  refine ⟨?_, ?_, ?_, ?_, ?_, ?_⟩
  · intro str opts hro
    simp [processEvent, processOption, hro]
  · intro v opts hro
    simp [processEvent, processOption, hro]
  · intro str g1 hro hg1
    simp [processEvent, processOption, hro, hg1]
  · intro v g1 hro hg1
    simp [processEvent, processOption, hro, hg1]
  · intro opts s2 effs hro hrun
    simp only [processEvent, hro] at hrun
    cases hg1 : lookupGrid
        (s.grids.map (fun p =>
          (p.1, p.2.update_cell_metrics cfg.fmOf opts.font opts.line_space)))
        1 with
    | none =>
      rw [hg1] at hrun
      simp at hrun
    | some g1m =>
      rw [hg1] at hrun
      have hg1' := hg1
      rw [lookupGrid_map_value s.grids
        (fun g => Grid.update_cell_metrics cfg.fmOf g opts.font opts.line_space)
        1] at hg1'
      cases hg0 : lookupGrid s.grids 1 with
      | none =>
        rw [hg0] at hg1'
        simp at hg1'
      | some g0 =>
        rw [hg0] at hg1'
        simp only [Option.map_some', Option.some.injEq] at hg1'
        cases hsid : s.resize_source_id with
        | none =>
          simp only [hsid, Option.some_bind, Option.pure_def,
            Option.some.injEq, Prod.mk.injEq] at hrun
          obtain ⟨rfl, rfl⟩ := hrun
          refine ⟨rfl, rfl, rfl, ?_, ⟨g0, rfl, ?_⟩⟩
          · rw [List.filter_append, List.filter_append, List.filter_append]
            rw [hum s.grids, hum2 s.grids]
            simp [Effect.isUpdateMetrics]
          · rw [List.filter_append, List.filter_append, List.filter_append]
            rw [hfm s.grids, hfm2 s.grids]
            rw [← hg1']
            simp [Effect.isUiTryResize]
        | some timer =>
          simp only [hsid, Option.some_bind, Option.pure_def,
            Option.some.injEq, Prod.mk.injEq] at hrun
          obtain ⟨rfl, rfl⟩ := hrun
          refine ⟨rfl, rfl, rfl, ?_, ⟨g0, rfl, ?_⟩⟩
          · rw [List.filter_append, List.filter_append, List.filter_append]
            rw [hum s.grids, hum2 s.grids]
            simp [Effect.isUpdateMetrics]
          · rw [List.filter_append, List.filter_append, List.filter_append]
            rw [hfm s.grids, hfm2 s.grids]
            rw [← hg1']
            simp [Effect.isUiTryResize]
  · intro hro
    simp only [processEvent, hro]
    rfl

/-- C3 witness: at the resize-pending sample state (pending record
(exFont, 2), armed timer 42), the flush clears the record, cancels the timer,
applies the record to grid 1 once, and issues exactly one negotiation with
grid 1's recomputed capacity. -/
theorem resize_pending_lifecycle_witness :
    exStateP2.resize_on_flush = none ∧
    exStateP2.resize_source_id = none ∧
    exStateP2.grids = exStateP.grids.map (fun p =>
      (p.1, p.2.update_cell_metrics exCfg.fmOf exFont 2)) ∧
    exFlushEffs.filter Effect.isUpdateMetrics
      = exStateP.grids.map (fun p => Effect.updateMetrics p.1 exFont 2) ∧
    (∃ g1, lookupGrid exStateP.grids 1 = some g1 ∧
      exFlushEffs.filter Effect.isUiTryResize
        = [Effect.uiTryResize
            (g1.update_cell_metrics exCfg.fmOf exFont 2).calc_size.1
            (g1.update_cell_metrics exCfg.fmOf exFont 2).calc_size.2]) :=
  (resize_pending_lifecycle exCfg exStateP).2.2.2.2.1 ⟨exFont, 2⟩ exStateP2
    exFlushEffs rfl (by rfl)

theorem handle_cons (cfg : Cfg) (e : RedrawEvent) (t : List RedrawEvent)
    (s : UIState) :
    handle_redraw_event cfg (e :: t) s
      = (processEvent cfg e s).bind (fun p =>
          (handle_redraw_event cfg t p.1).bind
            (fun q => some (q.1, p.2 ++ q.2))) := rfl

theorem handle_append (cfg : Cfg) (es1 es2 : List RedrawEvent) (s : UIState) :
    handle_redraw_event cfg (es1 ++ es2) s
      = (handle_redraw_event cfg es1 s).bind (fun p =>
          (handle_redraw_event cfg es2 p.1).map (fun q => (q.1, p.2 ++ q.2))) := by
  induction es1 generalizing s with
  | nil =>
    rw [List.nil_append,
      show handle_redraw_event cfg [] s = some (s, []) from rfl,
      Option.some_bind]
    cases h2 : handle_redraw_event cfg es2 s with
    | none => rfl
    | some q => simp
  | cons e rest ih =>
    rw [List.cons_append, handle_cons cfg e (rest ++ es2) s,
      handle_cons cfg e rest s]
    cases hpe : processEvent cfg e s with
    | none => rfl
    | some p =>
      rw [Option.some_bind, Option.some_bind, ih p.1]
      cases h1 : handle_redraw_event cfg rest p.1 with
      | none => rfl
      | some q =>
        rw [Option.some_bind, Option.some_bind, Option.some_bind]
        cases h2 : handle_redraw_event cfg es2 q.1 with
        | none => rfl
        | some r => simp [List.append_assoc]

/-- C9: events of one batch apply strictly in arrival order — handling a
concatenated batch equals handling the first part and feeding its resulting
state to the second part, with the effects concatenated in order — and in
particular a highlight definition is visible to a grid-line write later in
the same batch: the cells written by the grid-line event are rendered with
the highlight defined for their id earlier in the batch. -/
theorem batch_order_spec (cfg : Cfg) (s : UIState) :
    (∀ es1 es2, handle_redraw_event cfg (es1 ++ es2) s
        = (handle_redraw_event cfg es1 s).bind (fun p =>
            (handle_redraw_event cfg es2 p.1).map
              (fun q => (q.1, p.2 ++ q.2)))) ∧
    (∀ id hl line g, lookupGrid s.grids line.grid = some g →
      line.row < g.context.rows.length →
      (∀ c ∈ line.expanded, c.hl_id = id) →
      ∃ s2, handle_redraw_event cfg
          [.hlAttrDefine [⟨id, hl⟩], .gridLine [line]] s
        = some (s2, [Effect.drawCells line.grid line.row line.col_start
            (line.expanded.map (fun c => (c.text, hl)))])) := by
  constructor
  · intro es1 es2
    exact handle_append cfg es1 es2 s
  · intro id hl line g hg hrow hcells
    have hres : (Grid.put_line g line (s.hl_defs.insert id hl)).2
        = [Effect.drawCells line.grid line.row line.col_start
            (line.expanded.map (fun c =>
              (c.text, (s.hl_defs.insert id hl).hl_or_default c.hl_id)))] := by
      rw [Grid.put_line, if_pos hrow]
    have hmap : line.expanded.map (fun c =>
          (c.text, (s.hl_defs.insert id hl).hl_or_default c.hl_id))
        = line.expanded.map (fun c => (c.text, hl)) := by
      apply List.map_congr_left
      intro c hc
      rw [hcells c hc]
      rw [HlDefs.hl_or_default, hldefs_get_insert_self]
      rfl
    refine ⟨{ s with
      hl_defs := s.hl_defs.insert id hl,
      grids := setGrid s.grids line.grid
        (Grid.put_line g line (s.hl_defs.insert id hl)).1 }, ?_⟩
    have h1 : handle_redraw_event cfg
        [.hlAttrDefine [⟨id, hl⟩], .gridLine [line]] s
      = ((processEvent cfg (.gridLine [line])
            { s with hl_defs := s.hl_defs.insert id hl }).bind
          (fun p => some (p.1, p.2 ++ []))).bind
          (fun q => some (q.1, [] ++ q.2)) := by rfl
    have h2 : processEvent cfg (.gridLine [line])
        { s with hl_defs := s.hl_defs.insert id hl }
      = some ({ s with
          hl_defs := s.hl_defs.insert id hl,
          grids := setGrid s.grids line.grid
            (Grid.put_line g line (s.hl_defs.insert id hl)).1 },
        [] ++ (Grid.put_line g line (s.hl_defs.insert id hl)).2) := by
      simp only [processEvent, List.foldlM_cons, List.foldlM_nil]
      rw [show lookupGrid
        ({ s with hl_defs := s.hl_defs.insert id hl } : UIState).grids
          line.grid = some g from hg]
      rfl
    rw [h1, h2, Option.some_bind, Option.some_bind, hres, hmap]
    simp

/-- C9 witness: defining highlight 5 and then writing cells that use id 5 in
the same batch renders those cells with the new definition. -/
theorem batch_order_spec_witness :
    ∃ s2, handle_redraw_event exCfg
        [.hlAttrDefine [⟨5, exHl5⟩], .gridLine [exLine5]] exState
      = some (s2, [Effect.drawCells exLine5.grid exLine5.row exLine5.col_start
          (exLine5.expanded.map (fun c => (c.text, exHl5)))]) :=
  (batch_order_spec exCfg exState).2 5 exHl5 exLine5 exGrid1 rfl
    (by decide) (by decide)

theorem put_line_active (g : Grid) (line : GridLineData) (d : HlDefs) :
    (g.put_line line d).1.context.active = g.context.active := by
  rw [Grid.put_line]
  split <;> rfl

theorem stepRel_refl (s : UIState) : StepRel s s :=
  ⟨rfl, fun h => h, fun _ h => h⟩

theorem stepRel_trans {a b c : UIState} (h1 : StepRel a b) (h2 : StepRel b c) :
    StepRel a c :=
  ⟨h1.1 ▸ h2.1, fun h => h2.2.1 (h1.2.1 h),
   fun hA hC => h2.2.2 (h1.2.1 hA) (h1.2.2 hA hC)⟩

theorem foldlM_rel {α : Type}
    (f : UIState × List Effect → α → Option (UIState × List Effect))
    (hstep : ∀ acc a out, f acc a = some out → StepRel acc.1 out.1) :
    ∀ (l : List α) (acc out), l.foldlM f acc = some out →
      StepRel acc.1 out.1 := by
  intro l
  induction l with
  | nil =>
    intro acc out h
    simp only [List.foldlM_nil, Option.pure_def, Option.some.injEq] at h
    rw [← h]
    exact stepRel_refl _
  | cons x xs ih =>
    intro acc out h
    rw [List.foldlM_cons] at h
    cases hf : f acc x with
    | none => rw [hf] at h; exact absurd h (by simp)
    | some mid =>
      rw [hf] at h
      have h2 : List.foldlM f mid xs = some out := h
      exact stepRel_trans (hstep acc x mid hf) (ih mid out h2)

theorem stepRel_setGrid {s : UIState} {k : Nat} {g : Grid}
    (hk : lookupGrid s.grids k = some g) {v : Grid}
    (hv : v.context.active = g.context.active) {s2 : UIState}
    (hs2 : s2.grids = setGrid s.grids k v)
    (hcur : s2.current_grid = s.current_grid) : StepRel s s2 := by
  refine ⟨by rw [hs2, setGrid_keys], ?_, ?_⟩
  · intro hA p hp hact
    rw [hs2] at hp
    rcases mem_setGrid hp with ⟨hmem, _⟩ | hpv
    · rw [hcur]
      exact hA p hmem hact
    · rw [hpv] at hact ⊢
      rw [hcur]
      rw [hv] at hact
      exact hA (k, g) (lookupGrid_mem hk) hact
  · intro hA hC
    obtain ⟨gc, hgc, hgact⟩ := hC
    by_cases hkc : k = s.current_grid
    · subst hkc
      have : g = gc := by
        rw [hk] at hgc
        injection hgc
      refine ⟨v, ?_, ?_⟩
      · rw [hs2, hcur]
        exact lookupGrid_setGrid_self hk v
      · rw [hv, this]
        exact hgact
    · refine ⟨gc, ?_, hgact⟩
      rw [hs2, hcur, lookupGrid_setGrid_ne s.grids (fun h => hkc h.symm) v]
      exact hgc

theorem stepRel_mapGrids {s s2 : UIState} (f : Grid → Grid)
    (hf : ∀ g, (f g).context.active = g.context.active)
    (hs2 : s2.grids = s.grids.map (fun p => (p.1, f p.2)))
    (hcur : s2.current_grid = s.current_grid) : StepRel s s2 := by
  refine ⟨?_, ?_, ?_⟩
  · rw [hs2, List.map_map]
    rfl
  · intro hA p hp hact
    rw [hs2] at hp
    rcases List.mem_map.mp hp with ⟨q, hq, hqe⟩
    rw [← hqe] at hact ⊢
    rw [hcur]
    simp only at hact ⊢
    rw [hf q.2] at hact
    exact hA q hq hact
  · intro hA hC
    obtain ⟨gc, hgc, hgact⟩ := hC
    refine ⟨f gc, ?_, ?_⟩
    · rw [hs2, hcur, lookupGrid_map_value, hgc]
      rfl
    · rw [hf gc]
      exact hgact

theorem stepRel_of_unchanged {s s2 : UIState} (hg : s2.grids = s.grids)
    (hcur : s2.current_grid = s.current_grid) : StepRel s s2 := by
  refine ⟨by rw [hg], ?_, ?_⟩
  · intro hA p hp hact
    rw [hg] at hp
    rw [hcur]
    exact hA p hp hact
  · intro _ hC
    obtain ⟨gc, hgc, hgact⟩ := hC
    exact ⟨gc, by rw [hg, hcur]; exact hgc, hgact⟩

theorem processGoto_stepRel {s : UIState} {gt : GridCursorGoto}
    {s2 : UIState} (hrun : processGoto s gt = some s2) :
    StepRel s s2 ∧
    (gt.grid ≠ s.current_grid →
      (onlyCurrentActive s → onlyCurrentActive s2) ∧
      currentActive s2 ∧
      s2.current_grid = gt.grid ∧
      (∃ g, lookupGrid s2.grids gt.grid = some g ∧
        g.context.active = true ∧ g.context.cursor = (gt.row, gt.col)) ∧
      (∃ g0, lookupGrid s2.grids s.current_grid = some g0 ∧
        g0.context.active = false)) := by
  rw [processGoto] at hrun
  by_cases hc : gt.grid ≠ s.current_grid
  · rw [if_pos hc] at hrun
    cases hold : lookupGrid s.grids s.current_grid with
    | none => rw [hold] at hrun; exact absurd hrun (by simp)
    | some old =>
      rw [hold] at hrun
      simp only [Option.bind_eq_bind', Option.some_bind, Option.pure_def] at hrun
      cases hnew : lookupGrid
          (setGrid s.grids s.current_grid (old.set_active false)) gt.grid with
      | none => rw [hnew] at hrun; exact absurd hrun (by simp)
      | some new =>
        rw [hnew] at hrun
        simp only [Option.bind_eq_bind', Option.some_bind, Option.pure_def] at hrun
        rw [show lookupGrid
            (setGrid (setGrid s.grids s.current_grid (old.set_active false))
              gt.grid (new.set_active true)) gt.grid
            = some (new.set_active true) from
          lookupGrid_setGrid_self hnew _] at hrun
        simp only [Option.bind_eq_bind', Option.some_bind, Option.pure_def, Option.some.injEq] at hrun
        rw [← hrun]
        have honly : onlyCurrentActive s → ∀ p ∈ setGrid
            (setGrid (setGrid s.grids s.current_grid (old.set_active false))
              gt.grid (new.set_active true)) gt.grid
            (Grid.cursor_goto (new.set_active true) gt.row gt.col),
            p.2.context.active = true → p.1 = gt.grid := by
          intro hA p hp hact
          rcases mem_setGrid hp with ⟨hp2, hne⟩ | hpv
          · rcases mem_setGrid hp2 with ⟨hp1, _⟩ | hpv1
            · rcases mem_setGrid hp1 with ⟨hp0, hne0⟩ | hpv0
              · exact absurd (hA p hp0 hact) hne0
              · rw [hpv0] at hact
                exact absurd hact (by simp [Grid.set_active])
            · rw [hpv1] at hne
              exact absurd rfl hne
          · rw [hpv]
        have hlookup_new : lookupGrid (setGrid
            (setGrid (setGrid s.grids s.current_grid (old.set_active false))
              gt.grid (new.set_active true)) gt.grid
            (Grid.cursor_goto (new.set_active true) gt.row gt.col)) gt.grid
            = some (Grid.cursor_goto (new.set_active true) gt.row gt.col) :=
          lookupGrid_setGrid_self (lookupGrid_setGrid_self hnew _) _
        have hlookup_old : lookupGrid (setGrid
            (setGrid (setGrid s.grids s.current_grid (old.set_active false))
              gt.grid (new.set_active true)) gt.grid
            (Grid.cursor_goto (new.set_active true) gt.row gt.col))
            s.current_grid = some (old.set_active false) := by
          rw [lookupGrid_setGrid_ne _ (fun h => hc h.symm),
            lookupGrid_setGrid_ne _ (fun h => hc h.symm)]
          exact lookupGrid_setGrid_self hold _
        constructor
        · refine ⟨?_, ?_, ?_⟩
          · rw [setGrid_keys, setGrid_keys, setGrid_keys]
          · intro hA p hp hact
            exact honly hA p hp hact
          · intro _ _
            exact ⟨_, hlookup_new, rfl⟩
        · intro _
          refine ⟨fun hA p hp hact => honly hA p hp hact,
            ⟨_, hlookup_new, rfl⟩, rfl,
            ⟨_, hlookup_new, rfl, rfl⟩,
            ⟨_, hlookup_old, rfl⟩⟩
  · rw [if_neg hc] at hrun
    simp only [Option.bind_eq_bind', Option.some_bind, Option.pure_def] at hrun
    cases hg : lookupGrid s.grids gt.grid with
    | none => rw [hg] at hrun; exact absurd hrun (by simp)
    | some g =>
      rw [hg] at hrun
      simp only [Option.bind_eq_bind', Option.some_bind, Option.pure_def, Option.some.injEq] at hrun
      constructor
      · exact stepRel_setGrid hg (v := g.cursor_goto gt.row gt.col) rfl
          (by rw [← hrun]) (by rw [← hrun])
      · intro hcc
        exact absurd hcc hc

theorem processOption_stepRel (cfg : Cfg) {s : UIState} {opt : OptionSet}
    {s2 : UIState} (hrun : processOption cfg s opt = some s2) :
    StepRel s s2 := by
  cases opt with
  | guiFont str =>
    rw [processOption] at hrun
    cases hro : s.resize_on_flush with
    | some o =>
      rw [hro] at hrun
      simp only [Option.some.injEq] at hrun
      exact stepRel_of_unchanged (by rw [← hrun]) (by rw [← hrun])
    | none =>
      rw [hro] at hrun
      cases hg1 : lookupGrid s.grids 1 with
      | none => rw [hg1] at hrun; exact absurd hrun (by simp)
      | some g1 =>
        rw [hg1] at hrun
        simp only [Option.bind_eq_bind', Option.some_bind, Option.pure_def,
          Option.some.injEq] at hrun
        exact stepRel_of_unchanged (by rw [← hrun]) (by rw [← hrun])
  | lineSpace v =>
    rw [processOption] at hrun
    cases hro : s.resize_on_flush with
    | some o =>
      rw [hro] at hrun
      simp only [Option.some.injEq] at hrun
      exact stepRel_of_unchanged (by rw [← hrun]) (by rw [← hrun])
    | none =>
      rw [hro] at hrun
      cases hg1 : lookupGrid s.grids 1 with
      | none => rw [hg1] at hrun; exact absurd hrun (by simp)
      | some g1 =>
        rw [hg1] at hrun
        simp only [Option.bind_eq_bind', Option.some_bind, Option.pure_def,
          Option.some.injEq] at hrun
        exact stepRel_of_unchanged (by rw [← hrun]) (by rw [← hrun])
  | notSupported str =>
    rw [processOption] at hrun
    simp only [Option.some.injEq] at hrun
    exact stepRel_of_unchanged (by rw [← hrun]) (by rw [← hrun])

theorem processEvent_stepRel (cfg : Cfg) {e : RedrawEvent} {s s2 : UIState}
    {effs : List Effect} (hrun : processEvent cfg e s = some (s2, effs)) :
    StepRel s s2 := by
  cases e with
  | gridLine lines =>
    exact foldlM_rel _ (fun acc a out hf => by
      cases hlook : lookupGrid acc.1.grids a.grid with
      | none => rw [hlook] at hf; exact absurd hf (by simp)
      | some g =>
        rw [hlook] at hf
        simp only [Option.bind_eq_bind', Option.some_bind, Option.pure_def,
          Option.some.injEq] at hf
        exact stepRel_setGrid hlook (v := (g.put_line a acc.1.hl_defs).1)
          (put_line_active g a acc.1.hl_defs)
          (by rw [← hf]) (by rw [← hf])) lines (s, []) (s2, effs) hrun
  | gridCursorGoto gotos =>
    exact foldlM_rel _ (fun acc a out hf => by
      cases hpg : processGoto acc.1 a with
      | none => rw [hpg] at hf; exact absurd hf (by simp)
      | some sg =>
        rw [hpg] at hf
        simp only [Option.bind_eq_bind', Option.some_bind, Option.pure_def,
          Option.some.injEq] at hf
        have h := (processGoto_stepRel hpg).1
        rw [show sg = out.1 from by rw [← hf]] at h
        exact h) gotos (s, []) (s2, effs) hrun
  | gridResize resizes =>
    exact foldlM_rel _ (fun acc a out hf => by
      cases hlook : lookupGrid acc.1.grids a.grid with
      | none => rw [hlook] at hf; exact absurd hf (by simp)
      | some g =>
        rw [hlook] at hf
        simp only [Option.bind_eq_bind', Option.some_bind, Option.pure_def,
          Option.some.injEq] at hf
        exact stepRel_setGrid hlook (v := g.resize a.width a.height) rfl
          (by rw [← hf]) (by rw [← hf])) resizes (s, []) (s2, effs) hrun
  | gridClear grids =>
    exact foldlM_rel _ (fun acc a out hf => by
      cases hlook : lookupGrid acc.1.grids a with
      | none => rw [hlook] at hf; exact absurd hf (by simp)
      | some g =>
        rw [hlook] at hf
        simp only [Option.bind_eq_bind', Option.some_bind, Option.pure_def,
          Option.some.injEq] at hf
        exact stepRel_setGrid hlook (v := g.clear acc.1.hl_defs) rfl
          (by rw [← hf]) (by rw [← hf])) grids (s, []) (s2, effs) hrun
  | gridScroll scrolls =>
    exact foldlM_rel _ (fun acc a out hf => by
      cases hlook : lookupGrid acc.1.grids a.grid with
      | none => rw [hlook] at hf; exact absurd hf (by simp)
      | some g =>
        rw [hlook] at hf
        simp only [Option.bind_eq_bind', Option.some_bind, Option.pure_def,
          Option.some.injEq] at hf
        exact stepRel_setGrid hlook
          (v := g.scroll a.reg a.rows a.cols acc.1.hl_defs) rfl
          (by rw [← hf]) (by rw [← hf])) scrolls (s, []) (s2, effs) hrun
  | defaultColorsSet sets =>
    exact foldlM_rel _ (fun acc a out hf => by
      dsimp only [] at hf
      cases hget : HlDefs.get
          ⟨acc.1.hl_defs.hl_defs, a.fg, a.bg, a.sp⟩ 0 with
      | none => rw [hget] at hf; exact absurd hf (by simp)
      | some h0 =>
        rw [hget] at hf
        simp only [Option.bind_eq_bind', Option.some_bind, Option.pure_def,
          Option.some.injEq] at hf
        exact stepRel_of_unchanged (by rw [← hf]) (by rw [← hf]))
      sets (s, []) (s2, effs) hrun
  | hlAttrDefine defs =>
    exact foldlM_rel _ (fun acc a out hf => by
      simp only [Option.pure_def, Option.some.injEq] at hf
      exact stepRel_of_unchanged (by rw [← hf]) (by rw [← hf]))
      defs (s, []) (s2, effs) hrun
  | optionSet opts =>
    exact foldlM_rel _ (fun acc a out hf => by
      cases hpo : processOption cfg acc.1 a with
      | none => rw [hpo] at hf; exact absurd hf (by simp)
      | some so =>
        rw [hpo] at hf
        simp only [Option.bind_eq_bind', Option.some_bind, Option.pure_def,
          Option.some.injEq] at hf
        have h := processOption_stepRel cfg hpo
        rw [show so = out.1 from by rw [← hf]] at h
        exact h) opts (s, []) (s2, effs) hrun
  | flush =>
    cases hro : s.resize_on_flush with
    | none =>
      simp only [processEvent, hro, Option.pure_def, Option.some.injEq,
        Prod.mk.injEq] at hrun
      exact stepRel_of_unchanged (by rw [← hrun.1]) (by rw [← hrun.1])
    | some opts =>
      simp only [processEvent, hro] at hrun
      cases hg1 : lookupGrid (s.grids.map (fun p =>
          (p.1, p.2.update_cell_metrics cfg.fmOf opts.font opts.line_space)))
          1 with
      | none => rw [hg1] at hrun; exact absurd hrun (by simp)
      | some g1 =>
        rw [hg1] at hrun
        cases hsid : s.resize_source_id with
        | none =>
          simp only [hsid, Option.bind_eq_bind', Option.some_bind,
            Option.pure_def, Option.some.injEq, Prod.mk.injEq] at hrun
          exact stepRel_mapGrids
            (fun g => g.update_cell_metrics cfg.fmOf opts.font opts.line_space)
            (fun g => rfl) (by rw [← hrun.1]) (by rw [← hrun.1])
        | some timer =>
          simp only [hsid, Option.bind_eq_bind', Option.some_bind,
            Option.pure_def, Option.some.injEq, Prod.mk.injEq] at hrun
          exact stepRel_mapGrids
            (fun g => g.update_cell_metrics cfg.fmOf opts.font opts.line_space)
            (fun g => rfl) (by rw [← hrun.1]) (by rw [← hrun.1])

theorem handle_stepRel (cfg : Cfg) :
    ∀ (events : List RedrawEvent) {s s2 : UIState} {effs : List Effect},
      handle_redraw_event cfg events s = some (s2, effs) → StepRel s s2 := by
  intro events
  induction events with
  | nil =>
    intro s s2 effs h
    simp only [handle_redraw_event, Option.pure_def, Option.some.injEq,
      Prod.mk.injEq] at h
    rw [← h.1]
    exact stepRel_refl s
  | cons e rest ih =>
    intro s s2 effs h
    rw [handle_cons cfg e rest s] at h
    cases hpe : processEvent cfg e s with
    | none => rw [hpe] at h; exact absurd h (by simp)
    | some p =>
      rw [hpe, Option.some_bind] at h
      cases hh : handle_redraw_event cfg rest p.1 with
      | none => rw [hh] at h; exact absurd h (by simp)
      | some q =>
        rw [hh, Option.some_bind] at h
        simp only [Option.some.injEq, Prod.mk.injEq] at h
        have h2 := ih (show handle_redraw_event cfg rest p.1
          = some (q.1, q.2) from by rw [hh])
        rw [show q.1 = s2 from by rw [← h.1]] at h2
        exact stepRel_trans (processEvent_stepRel cfg
          (show processEvent cfg e s = some (p.1, p.2) from by
            rw [hpe])) h2

theorem filter_active_length {gs : List (Nat × Grid)} {cur : Nat}
    (hA : ∀ p ∈ gs, p.2.context.active = true → p.1 = cur)
    (hC : ∃ g, lookupGrid gs cur = some g ∧ g.context.active = true)
    (hN : (gs.map Prod.fst).Nodup) :
    (gs.filter (fun p => p.2.context.active)).length = 1 := by
  induction gs with
  | nil =>
    obtain ⟨g, hg, _⟩ := hC
    exact absurd hg (by simp [lookupGrid_nil])
  | cons p rest ih =>
    rw [List.map_cons, List.nodup_cons] at hN
    rw [List.filter_cons]
    cases hpa : p.2.context.active with
    | true =>
      have hkey : p.1 = cur := hA p (List.mem_cons_self _ _) hpa
      have hrest : rest.filter (fun q => q.2.context.active) = [] := by
        rw [List.filter_eq_nil_iff]
        intro q hq hqa
        have : q.1 = cur := hA q (List.mem_cons_of_mem _ hq) (by simpa using hqa)
        exact hN.1 (List.mem_map.mpr ⟨q, hq, by rw [this, hkey]⟩)
      simp [hpa, hrest]
    | false =>
      simp only [hpa, Bool.false_eq_true, if_false]
      refine ih ?_ ?_ hN.2
      · intro q hq hqa
        exact hA q (List.mem_cons_of_mem _ hq) hqa
      · obtain ⟨g, hg, hga⟩ := hC
        rw [lookupGrid_cons] at hg
        by_cases hpc : p.1 = cur
        · rw [if_pos hpc] at hg
          have : p.2 = g := by injection hg
          rw [← this] at hga
          rw [hga] at hpa
          exact absurd hpa (by simp)
        · rw [if_neg hpc] at hg
          exact ⟨g, hg, hga⟩

theorem countActive_eq_one {s : UIState} (hA : onlyCurrentActive s)
    (hC : currentActive s) (hN : NodupKeys s) : countActive s = 1 :=
  filter_active_length hA hC hN

theorem crossGotos_active (gotos : List GridCursorGoto) :
    ∀ {s : UIState} {acc : List Effect} {out : UIState × List Effect},
      crossGotoInGotos gotos s = true →
      gotos.foldlM (fun acc gt => do
        let s2 ← processGoto acc.1 gt
        pure (s2, acc.2)) (s, acc) = some out →
      onlyCurrentActive s →
      onlyCurrentActive out.1 ∧ currentActive out.1 := by
  induction gotos with
  | nil =>
    intro s acc out hcr _ _
    exact absurd hcr (by simp [crossGotoInGotos])
  | cons gt rest ih =>
    intro s acc out hcr hfold hA
    rw [List.foldlM_cons] at hfold
    cases hpg : processGoto s gt with
    | none => rw [hpg] at hfold; exact absurd hfold (by simp)
    | some sg =>
      rw [hpg] at hfold
      have hfold2 : rest.foldlM (fun acc gt => do
          let s2 ← processGoto acc.1 gt
          pure (s2, acc.2)) (sg, acc) = some out := hfold
      have hstep := processGoto_stepRel hpg
      by_cases hcc : gt.grid ≠ s.current_grid
      · have hx := hstep.2 hcc
        have hA2 : onlyCurrentActive sg := hx.1 hA
        have hC2 : currentActive sg := hx.2.1
        have hrel := foldlM_rel _ (fun acc2 a2 out2 hf => by
          cases hpg2 : processGoto acc2.1 a2 with
          | none => rw [hpg2] at hf; exact absurd hf (by simp)
          | some sg2 =>
            rw [hpg2] at hf
            simp only [Option.bind_eq_bind', Option.some_bind,
              Option.pure_def, Option.some.injEq] at hf
            have h := (processGoto_stepRel hpg2).1
            rw [show sg2 = out2.1 from by rw [← hf]] at h
            exact h) rest (sg, acc) out hfold2
        exact ⟨hrel.2.1 hA2, hrel.2.2 hA2 hC2⟩
      · rw [crossGotoInGotos] at hcr
        have heq : gt.grid = s.current_grid := not_ne_iff.mp hcc
        have hbe : (gt.grid != s.current_grid) = false := by
          rw [heq]
          exact bne_self_eq_false _
        simp only [hbe, hpg, Bool.false_or] at hcr
        exact ih hcr hfold2 (hstep.1.2.1 hA)

theorem crossBatch_active (cfg : Cfg) (events : List RedrawEvent) :
    ∀ {s : UIState} {out : UIState × List Effect},
      crossGotoInBatch cfg events s = true →
      handle_redraw_event cfg events s = some out →
      onlyCurrentActive s →
      onlyCurrentActive out.1 ∧ currentActive out.1 := by
  induction events with
  | nil =>
    intro s out hcr _ _
    exact absurd hcr (by rw [show crossGotoInBatch cfg [] s = false from rfl]; simp)
  | cons e rest ih =>
    intro s out hcr hrun hA
    rw [handle_cons cfg e rest s] at hrun
    cases hpe : processEvent cfg e s with
    | none => rw [hpe] at hrun; exact absurd hrun (by simp)
    | some p =>
      obtain ⟨p1, p2⟩ := p
      rw [hpe, Option.some_bind] at hrun
      cases hh : handle_redraw_event cfg rest p1 with
      | none => rw [hh] at hrun; exact absurd hrun (by simp)
      | some q =>
        rw [hh, Option.some_bind] at hrun
        simp only [Option.some.injEq] at hrun
        have hout1 : out.1 = q.1 := by rw [← hrun]
        have hA1 : onlyCurrentActive p1 :=
          (processEvent_stepRel cfg hpe).2.1 hA
        have hrec : crossGotoInBatch cfg rest p1 = true →
            onlyCurrentActive out.1 ∧ currentActive out.1 := by
          intro hcr2
          rw [hout1]
          exact ih hcr2 (show handle_redraw_event cfg rest p1
            = some (q.1, q.2) from by rw [hh]) hA1
        cases e with
        | gridCursorGoto gotos =>
          cases hhead : crossGotoInGotos gotos s with
          | true =>
            have hfold : gotos.foldlM (fun acc gt => do
                let s2 ← processGoto acc.1 gt
                pure (s2, acc.2)) (s, ([] : List Effect))
                = some (p1, p2) := hpe
            have hact := crossGotos_active gotos hhead hfold hA
            have hrel := handle_stepRel cfg rest
              (show handle_redraw_event cfg rest p1
                = some (q.1, q.2) from by rw [hh])
            rw [hout1]
            exact ⟨hrel.2.1 hact.1, hrel.2.2 hact.1 hact.2⟩
          | false =>
            simp only [crossGotoInBatch, hhead, hpe, Bool.false_or] at hcr
            exact hrec hcr
        | gridLine lines =>
          simp only [crossGotoInBatch, hpe, Bool.false_or] at hcr
          exact hrec hcr
        | gridResize resizes =>
          simp only [crossGotoInBatch, hpe, Bool.false_or] at hcr
          exact hrec hcr
        | gridClear grids =>
          simp only [crossGotoInBatch, hpe, Bool.false_or] at hcr
          exact hrec hcr
        | gridScroll scrolls =>
          simp only [crossGotoInBatch, hpe, Bool.false_or] at hcr
          exact hrec hcr
        | defaultColorsSet sets =>
          simp only [crossGotoInBatch, hpe, Bool.false_or] at hcr
          exact hrec hcr
        | hlAttrDefine defs =>
          simp only [crossGotoInBatch, hpe, Bool.false_or] at hcr
          exact hrec hcr
        | optionSet opts =>
          simp only [crossGotoInBatch, hpe, Bool.false_or] at hcr
          exact hrec hcr
        | flush =>
          simp only [crossGotoInBatch, hpe, Bool.false_or] at hcr
          exact hrec hcr

/-- C4: a cursor-goto targeting a grid other than the current one is one
combined operation: afterwards the current-grid pointer names the target, the
target grid is active and holds the new cursor position, and the previously
current grid is inactive — all in the same step, never partially applied.
Batch-level: starting from a state where only the current grid may be active
and grid ids are unique, after any successfully handled batch the
only-current-active invariant still holds, and if the batch contained a
cursor-goto to a grid other than the one current at its application, exactly
one grid is active at the end of the batch. -/
theorem cursor_goto_switch_spec (cfg : Cfg) (s : UIState) :
    (∀ gt s2, gt.grid ≠ s.current_grid → processGoto s gt = some s2 →
      s2.current_grid = gt.grid ∧
      (∃ g, lookupGrid s2.grids gt.grid = some g ∧
        g.context.active = true ∧ g.context.cursor = (gt.row, gt.col)) ∧
      (∃ g0, lookupGrid s2.grids s.current_grid = some g0 ∧
        g0.context.active = false)) ∧
    (∀ events s2 effs, NodupKeys s → onlyCurrentActive s →
      handle_redraw_event cfg events s = some (s2, effs) →
      onlyCurrentActive s2 ∧
      (crossGotoInBatch cfg events s = true → countActive s2 = 1)) := by
  constructor
  · intro gt s2 hne hrun
    have h := (processGoto_stepRel hrun).2 hne
    exact ⟨h.2.2.1, h.2.2.2.1, h.2.2.2.2⟩
  · intro events s2 effs hN hA hrun
    have hrel := handle_stepRel cfg events hrun
    refine ⟨hrel.2.1 hA, ?_⟩
    intro hcr
    have hact := crossBatch_active cfg events hcr hrun hA
    have hN2 : NodupKeys s2 := by
      rw [NodupKeys, hrel.1]
      exact hN
    exact countActive_eq_one hact.1 hact.2 hN2

/-- C4 witness: at the two-grid sample state (grid 1 current, none active), a
batch with a single cursor-goto to grid 2 leaves exactly one grid active, and
the per-event combined operation holds at that goto. -/
theorem cursor_goto_switch_spec_witness :
    (exState2After.current_grid = 2 ∧
      (∃ g, lookupGrid exState2After.grids 2 = some g ∧
        g.context.active = true ∧ g.context.cursor = (3, 4)) ∧
      (∃ g0, lookupGrid exState2After.grids exState2.current_grid = some g0 ∧
        g0.context.active = false)) ∧
    onlyCurrentActive exState2After ∧ countActive exState2After = 1 := by
  have h1 := (cursor_goto_switch_spec exCfg exState2).1 ⟨2, 3, 4⟩ exState2After
    (by decide) (by rfl)
  have h2 := (cursor_goto_switch_spec exCfg exState2).2
    [.gridCursorGoto [⟨2, 3, 4⟩]] exState2After []
    (by unfold NodupKeys; decide)
    (by
      intro p hp hact
      have hp2 : p = (1, exGrid1) ∨ p = (2, exGrid2) := by
        have hmem : p ∈ [(1, exGrid1), (2, exGrid2)] := hp
        simpa using hmem
      rcases hp2 with rfl | rfl
      · rfl
      · exact absurd hact (by decide))
    (by rfl)
  exact ⟨h1, h2.1, h2.2 (by rfl)⟩

theorem debounceInv_init : DebounceInv {} :=
  ⟨rfl, fun _ ht => absurd ht (List.not_mem_nil _)⟩

theorem debounceInv_fireIfDue (t : Nat) {s : DebounceState}
    (h : DebounceInv s) :
    DebounceInv (fireIfDue t s).1 ∧ (fireIfDue t s).1.next_id = s.next_id := by
  cases harm : s.armed with
  | none =>
    simp only [fireIfDue, harm]
    exact ⟨h, trivial⟩
  | some q =>
    obtain ⟨timer, a, rows, cols⟩ := q
    by_cases hdue : a + debounceMs ≤ t
    · simp only [fireIfDue, harm, if_pos hdue]
      refine ⟨⟨?_, ?_⟩, trivial⟩
      · have hl : s.live = [timer] := by
          rw [h.1, harm]
          rfl
        simp [hl]
      · intro x hx
        simp only at hx
        exact h.2 x (List.mem_of_mem_erase hx)
    · simp only [fireIfDue, harm, if_neg hdue]
      exact ⟨h, trivial⟩

theorem debounceInv_stepDa (t : Nat) (e : DaEvent) {s : DebounceState}
    (h : DebounceInv s) : DebounceInv (stepDa t e s) := by
  cases e with
  | resizeSignal rows cols =>
    cases harm : s.armed with
    | none =>
      have hl : s.live = [] := by
        rw [h.1, harm]
        rfl
      simp only [stepDa, harm, hl]
      refine ⟨rfl, ?_⟩
      intro x hx
      have : x = s.next_id := by simpa using hx
      rw [this]
      exact Nat.lt_succ_self _
    | some q =>
      obtain ⟨old, a, r0, c0⟩ := q
      have hl : s.live = [old] := by
        rw [h.1, harm]
        rfl
      have hne : s.next_id ≠ old := by
        intro hcontra
        have := h.2 old (by rw [hl]; exact List.mem_singleton_self _)
        rw [hcontra] at this
        exact absurd this (Nat.lt_irrefl _)
      have herase : (s.next_id :: s.live).erase old = [s.next_id] := by
        rw [hl, List.erase_cons]
        rw [if_neg (by simpa using hne)]
        simp [List.erase_cons]
      simp only [stepDa, harm, herase]
      refine ⟨rfl, ?_⟩
      intro x hx
      have : x = s.next_id := by simpa using hx
      rw [this]
      exact Nat.lt_succ_self _
  | flushMetrics =>
    cases harm : s.armed with
    | none =>
      simp only [stepDa, harm]
      exact h
    | some q =>
      obtain ⟨old, a, r0, c0⟩ := q
      have hl : s.live = [old] := by
        rw [h.1, harm]
        rfl
      have herase : s.live.erase old = [] := by
        rw [hl]
        simp [List.erase_cons]
      simp only [stepDa, harm, herase]
      exact ⟨rfl, fun x hx => absurd hx (List.not_mem_nil _)⟩

theorem debounceInv_stepAt (t : Nat) (e : DaEvent) {s : DebounceState}
    (h : DebounceInv s) : DebounceInv (stepAt t e s).1 := by
  have h2 : (stepAt t e s).1 = stepDa t e (fireIfDue t s).1 := rfl
  rw [h2]
  exact debounceInv_stepDa t e (debounceInv_fireIfDue t h).1

theorem runDebounceSt_inv (pre : List (Nat × DaEvent)) :
    ∀ {s : DebounceState}, DebounceInv s →
      DebounceInv (runDebounceSt pre s) := by
  induction pre with
  | nil => intro s h; exact h
  | cons x rest ih =>
    intro s h
    rw [runDebounceSt]
    exact ih (debounceInv_stepAt x.1 x.2 h)

theorem runDebounce_fires_eq (sch : List (Nat × DaEvent)) :
    ∀ (s : DebounceState),
      (runDebounce sch s).1 = armedFires s.armed sch ++ debouncedFires sch := by
  induction sch with
  | nil =>
    intro s
    cases harm : s.armed with
    | none => simp [runDebounce, armedFires, debouncedFires, harm]
    | some q =>
      obtain ⟨timer, a, rows, cols⟩ := q
      simp [runDebounce, armedFires, debouncedFires, harm]
  | cons x rest ih =>
    intro s
    obtain ⟨t, e⟩ := x
    have hsplit : (runDebounce ((t, e) :: rest) s).1
        = (stepAt t e s).2 ++ (runDebounce rest (stepAt t e s).1).1 := rfl
    have hfire : (stepAt t e s).2 = armedFires s.armed ((t, e) :: rest) := by
      cases harm : s.armed with
      | none => simp only [stepAt, fireIfDue, armedFires, harm]
      | some q =>
        obtain ⟨timer, a, rows, cols⟩ := q
        by_cases hdue : a + debounceMs ≤ t
        · simp only [stepAt, fireIfDue, armedFires, harm, if_pos hdue]
        · simp only [stepAt, fireIfDue, armedFires, harm, if_neg hdue]
    rw [hsplit, hfire, ih ((stepAt t e s).1)]
    cases e with
    | resizeSignal rows cols =>
      have harm2 : (stepAt t (DaEvent.resizeSignal rows cols) s).1.armed
          = some ((fireIfDue t s).1.next_id, t, rows, cols) := rfl
      rw [harm2]
      cases rest with
      | nil => rfl
      | cons y rest2 =>
        obtain ⟨t2, e2⟩ := y
        rfl
    | flushMetrics =>
      have harm2 : (stepAt t DaEvent.flushMetrics s).1.armed = none := by
        cases harm1 : (fireIfDue t s).1.armed with
        | none =>
          have hst : (stepAt t DaEvent.flushMetrics s).1
              = stepDa t DaEvent.flushMetrics (fireIfDue t s).1 := rfl
          rw [hst]
          simp [stepDa, harm1]
        | some q =>
          obtain ⟨old, a, r0, c0⟩ := q
          have hst : (stepAt t DaEvent.flushMetrics s).1
              = stepDa t DaEvent.flushMetrics (fireIfDue t s).1 := rfl
          rw [hst]
          simp [stepDa, harm1]
      rw [harm2]
      cases rest with
      | nil => rfl
      | cons y rest2 =>
        obtain ⟨t2, e2⟩ := y
        rfl

/-- C5: the debounce discipline of the outbound resize negotiation. Over any
schedule of resize signals and metrics-applying flushes, (1) the negotiations
the machine emits are exactly those of signals not followed by another
stimulus strictly within the debounce interval (each earlier timer is
cancelled and replaced); (2) at every point of the schedule at most one
timeout is registered; (3) from any well-formed state, a resize signal leaves
exactly the newly armed timer registered (cancel-and-replace); and (4) a
flush that applies a metrics change cancels the pending timer, leaving none
armed and none registered. -/
theorem debounce_cancel_replace_spec (sch : List (Nat × DaEvent)) :
    ((runDebounce sch {}).1 = debouncedFires sch) ∧
    (∀ pre post, sch = pre ++ post →
      (runDebounceSt pre {}).live.length ≤ 1) ∧
    (∀ t rows cols s, DebounceInv s →
      (stepAt t (DaEvent.resizeSignal rows cols) s).1.live
          = [(fireIfDue t s).1.next_id] ∧
      (stepAt t (DaEvent.resizeSignal rows cols) s).1.armed
          = some ((fireIfDue t s).1.next_id, t, rows, cols)) ∧
    (∀ t s, DebounceInv s →
      (stepAt t DaEvent.flushMetrics s).1.armed = none ∧
      (stepAt t DaEvent.flushMetrics s).1.live = []) := by
  refine ⟨?_, ?_, ?_, ?_⟩
  · rw [runDebounce_fires_eq sch {}]
    cases sch with
    | nil => rfl
    | cons y rest =>
      obtain ⟨t, e⟩ := y
      rfl
  · intro pre post _
    have hinv := runDebounceSt_inv pre debounceInv_init
    rw [hinv.1]
    cases (runDebounceSt pre {}).armed with
    | none => simp
    | some q => simp
  · intro t rows cols s hs
    have hs1 := (debounceInv_fireIfDue t hs).1
    have hstep : (stepAt t (DaEvent.resizeSignal rows cols) s).1
        = stepDa t (DaEvent.resizeSignal rows cols) (fireIfDue t s).1 := rfl
    rw [hstep]
    have h2 := debounceInv_stepDa t (DaEvent.resizeSignal rows cols) hs1
    have harm : (stepDa t (DaEvent.resizeSignal rows cols)
        (fireIfDue t s).1).armed
        = some ((fireIfDue t s).1.next_id, t, rows, cols) := rfl
    refine ⟨?_, harm⟩
    rw [h2.1, harm]
    rfl
  · intro t s hs
    have hs1 := (debounceInv_fireIfDue t hs).1
    have hstep : (stepAt t DaEvent.flushMetrics s).1
        = stepDa t DaEvent.flushMetrics (fireIfDue t s).1 := rfl
    rw [hstep]
    have h2 := debounceInv_stepDa t DaEvent.flushMetrics hs1
    have harm : (stepDa t DaEvent.flushMetrics (fireIfDue t s).1).armed
        = none := by
      cases harm1 : (fireIfDue t s).1.armed with
      | none =>
        simp [stepDa, harm1]
      | some q =>
        obtain ⟨old, a, r0, c0⟩ := q
        simp [stepDa, harm1]
    refine ⟨harm, ?_⟩
    rw [h2.1, harm]
    rfl

/-- C5 witness: on the sample schedule the machine negotiates exactly for
the two trailing-quiet signals (at times 40 and 230); the prefix of two
rapid signals leaves at most one registered timeout; and a metrics flush
from the initial state leaves nothing armed. -/
theorem debounce_cancel_replace_spec_witness :
    (runDebounce exSch {}).1 = [(40, 11, 21), (230, 5, 5)] ∧
    (runDebounceSt [(0, DaEvent.resizeSignal 10 20),
      (10, DaEvent.resizeSignal 11 21)] {}).live.length ≤ 1 ∧
    (stepAt 5 DaEvent.flushMetrics {}).1.armed = none :=
  ⟨((debounce_cancel_replace_spec exSch).1).trans (by decide),
   (debounce_cancel_replace_spec exSch).2.1
     [(0, DaEvent.resizeSignal 10 20), (10, DaEvent.resizeSignal 11 21)]
     [(100, DaEvent.flushMetrics), (200, DaEvent.resizeSignal 5 5)] rfl,
   ((debounce_cancel_replace_spec exSch).2.2.2 5 {} debounceInv_init).1⟩

end Gnvim
